import Mathlib

/-!
Verification development for the spotify-metadata-api repository (Go).

The repository is a read-only metadata API over two SQLite stores
(`internal/db/db.go`, `internal/api/handlers.go`, `internal/models`).
This file shallowly embeds the data model and the query functions of the
source and proves the properties claimed about them.

Modelling conventions:
  * each SQLite table is a list of row structures held in a `Store`;
  * each SQL query is a pure function over the `Store`: `WHERE` becomes
    `List.filter`, `ORDER BY` a stable insertion sort (`List.insertionSort`,
    which matches the deterministic order chosen for the model),
    `SELECT DISTINCT` a keep-first deduplication, `GROUP BY` a keep-first
    grouping, and `JOIN ... ON x.rowid = ...` a lookup by rowid (rowids are
    unique per table in SQLite);
  * fallible queries return `Except String`; a `Faults` record says which
    query sites fail, one flag per `QueryContext`/`QueryRowContext` call
    site of the source, so that error-handling behaviour can be stated;
  * Go `nil` slices and empty slices are both the empty list, Go maps
    built by `m[k] = append(m[k], v)` / `m[k] = v` are association lists
    built by `assocUpdAppend` / `assocInsert` (only lookups are observed).
-/

set_option maxHeartbeats 1000000

namespace MetadataApi

/-! ### Generic list combinators modelling SQL clause semantics -/

instance [DecidableEq ε] [DecidableEq α] : DecidableEq (Except ε α) :=
  fun a b =>
    match a, b with
    | .ok x, .ok y =>
      decidable_of_iff (x = y) ⟨fun h => h ▸ rfl, fun h => by injection h⟩
    | .error x, .error y =>
      decidable_of_iff (x = y) ⟨fun h => h ▸ rfl, fun h => by injection h⟩
    | .ok _, .error _ => .isFalse (fun h => Except.noConfusion h)
    | .error _, .ok _ => .isFalse (fun h => Except.noConfusion h)

/-- Keep-first deduplication: the semantics chosen for SQL `SELECT DISTINCT`
rows in this model (every occurrence after the first is dropped). -/
def dedupF [DecidableEq α] : List α → List α
  | [] => []
  | x :: xs => x :: dedupF (xs.filter (fun y => decide (y ≠ x)))
termination_by l => l.length
decreasing_by
  simp only [List.length_cons]
  exact Nat.lt_succ_of_le (List.length_filter_le _ _)

/-- Keep-first grouping by a key: models SQL `GROUP BY`.  Each output pair is
a representative row (the first of its group) together with the full group,
groups ordered by first occurrence. -/
def groupAgg [DecidableEq κ] (key : α → κ) : List α → List (α × List α)
  | [] => []
  | x :: xs =>
    (x, x :: xs.filter (fun y => decide (key y = key x))) ::
      groupAgg key (xs.filter (fun y => decide (key y ≠ key x)))
termination_by l => l.length
decreasing_by
  simp only [List.length_cons]
  exact Nat.lt_succ_of_le (List.length_filter_le _ _)

/-- Association-list lookup, modelling a Go map read `m[k]`. -/
def assocGet [DecidableEq κ] (m : List (κ × β)) (k : κ) : Option β :=
  (m.find? (fun e => decide (e.1 = k))).map (fun e => e.2)

/-- Modelling the Go idiom `m[k] = append(m[k], v)`. -/
def assocUpdAppend [DecidableEq κ] (m : List (κ × List β)) (k : κ) (v : β) :
    List (κ × List β) :=
  match m with
  | [] => [(k, [v])]
  | (k', vs) :: rest =>
    if k' = k then (k', vs ++ [v]) :: rest else (k', vs) :: assocUpdAppend rest k v

/-- Modelling the Go idiom `m[k] = v` (insert or replace). -/
def assocInsert [DecidableEq κ] (m : List (κ × β)) (k : κ) (v : β) :
    List (κ × β) :=
  match m with
  | [] => [(k, v)]
  | (k', v') :: rest =>
    if k' = k then (k', v) :: rest else (k', v') :: assocInsert rest k v

/-- Value of a fallible computation, with a default on failure: models the Go
idiom of ignoring (or merely logging) an error and using the zero value. -/
def exceptD (e : Except String β) (d : β) : β :=
  match e with
  | .ok v => v
  | .error _ => d

/-! ### Order relations modelling SQL `ORDER BY` keys -/

/-- Single-key ordering, `ORDER BY k ASC` (descending keys are obtained by
mapping into the order dual). -/
abbrev leKey [LinearOrder β] (k : α → β) (a b : α) : Prop :=
  k a ≤ k b

/-- Two-key lexicographic ordering, `ORDER BY k1, k2` (descending components
are obtained by mapping into the order dual). -/
abbrev leLex [LinearOrder β] [LinearOrder γ] (k1 : α → β) (k2 : α → γ)
    (a b : α) : Prop :=
  k1 a < k1 b ∨ (k1 a = k1 b ∧ k2 a ≤ k2 b)

/-- Left-biased choice on options. -/
def optOr (a b : Option β) : Option β :=
  match a with
  | some v => some v
  | none => b

/-- Appending to an optional accumulated list (absent and empty differ, as for
Go map entries). -/
def optAppend (a : Option (List β)) (g : List β) : Option (List β) :=
  match a, g with
  | none, [] => none
  | none, g => some g
  | some vs, g => some (vs ++ g)

/-- The Go loop `for _, x := range l { m[key(x)] = append(m[key(x)], val(x)) }`
starting from an empty map. -/
def collectBy [DecidableEq κ] (key : α → κ) (val : α → β) (l : List α) :
    List (κ × List β) :=
  l.foldl (fun m x => assocUpdAppend m (key x) (val x)) []

/-- The Go loop `for _, x := range l { m[key(x)] = val(x) }` starting from an
empty map (later rows overwrite earlier ones). -/
def collectLast [DecidableEq κ] (key : α → κ) (val : α → β) (l : List α) :
    List (κ × β) :=
  l.foldl (fun m x => assocInsert m (key x) (val x)) []

/-! ### A small JSON string-array decoder, modelling
json.Unmarshal into a Go string slice for the annotation columns -/

/-- Skip JSON whitespace. -/
def skipWs : List Char → List Char
  | c :: cs => if c = ' ' ∨ c = '\n' ∨ c = '\t' ∨ c = '\r' then skipWs cs else c :: cs
  | [] => []

/-- Decode a JSON string body after its opening quote, returning the decoded
text and the remaining input. -/
def parseJString : List Char → Option (String × List Char)
  | [] => none
  | '"' :: rest => some ("", rest)
  | '\\' :: c :: rest =>
    let d := if c = 'n' then '\n' else if c = 't' then '\t'
      else if c = 'r' then '\r' else c
    (parseJString rest).map (fun p => (String.mk [d] ++ p.1, p.2))
  | c :: rest => (parseJString rest).map (fun p => (String.mk [c] ++ p.1, p.2))
termination_by l => l.length

/-- Decode the comma-separated items of a JSON string array, after the
opening bracket (and not for the empty array). -/
def parseJItems (fuel : Nat) (cs : List Char) (acc : List String) :
    Option (List String) :=
  match fuel with
  | 0 => none
  | fuel + 1 =>
    match skipWs cs with
    | '"' :: rest =>
      match parseJString rest with
      | none => none
      | some (s, rest2) =>
        match skipWs rest2 with
        | ',' :: rest3 => parseJItems fuel rest3 (acc ++ [s])
        | ']' :: rest3 =>
          if (skipWs rest3).isEmpty then some (acc ++ [s]) else none
        | _ => none
    | _ => none

/-- Decode a JSON array of strings; `none` models a json.Unmarshal error. -/
def parseJsonStringList (s : String) : Option (List String) :=
  match skipWs s.data with
  | '[' :: rest =>
    match skipWs rest with
    | ']' :: rest2 => if (skipWs rest2).isEmpty then some [] else none
    | _ => parseJItems (s.length + 1) rest []
  | _ => none

/-! ### API response types, from internal/models/models.go -/

/-- models.Image. -/
structure Image where
  url : String
  width : Int
  height : Int
deriving DecidableEq, Repr

/-- models.Artist. -/
structure Artist where
  id : String
  name : String
  followers : Int
  popularity : Int
  genres : List String := []
  images : List Image := []
deriving DecidableEq, Repr

/-- models.Album (`albumType` embeds the Go field `Type`). -/
structure Album where
  id : String
  name : String
  albumType : String
  label : String
  releaseDate : String
  releaseDatePrecision : String
  upc : String := ""
  totalTracks : Int
  copyrightC : String := ""
  copyrightP : String := ""
  images : List Image := []
  artists : List Artist := []
deriving DecidableEq, Repr

/-- models.Track. -/
structure Track where
  id : String
  name : String
  isrc : String := ""
  durationMs : Int
  explicit : Bool
  trackNum : Int
  discNum : Int
  popularity : Int
  previewUrl : String := ""
  album : Option Album := none
  artists : List Artist := []
  originalTitle : String := ""
  versionTitle : String := ""
  hasLyrics : Option Bool := none
  languages : List String := []
  artistRoles : List String := []
deriving DecidableEq, Repr

/-- models.BatchLookupRequest. -/
structure BatchLookupRequest where
  tracks : List String := []
  artists : List String := []
  albums : List String := []
  isrcs : List String := []
deriving DecidableEq, Repr

/-- models.BatchLookupResponse; Go `nil` maps are `none`. -/
structure BatchLookupResponse where
  tracks : Option (List (String × Track)) := none
  artists : Option (List (String × Artist)) := none
  albums : Option (List (String × Album)) := none
  isrcs : Option (List (String × List Track)) := none
  errors : List (String × String) := []
deriving DecidableEq, Repr

/-! ### Store rows: one structure per SQLite table column set used by the
queries of internal/db/db.go; `Option` fields are nullable columns -/

/-- A row of the `tracks` table. -/
structure TrackRow where
  rowid : Int
  id : String
  name : String
  isrc : Option String
  durationMs : Int
  explicit : Bool
  trackNumber : Int
  discNumber : Int
  popularity : Int
  previewUrl : Option String
  albumRowid : Int
deriving DecidableEq, Repr

/-- A row of the `albums` table. -/
structure AlbumRow where
  rowid : Int
  id : String
  name : String
  albumType : String
  label : String
  releaseDate : String
  releaseDatePrecision : String
  upc : Option String
  totalTracks : Int
  copyrightC : Option String
  copyrightP : Option String
deriving DecidableEq, Repr

/-- A row of the `artists` table. -/
structure ArtistRow where
  rowid : Int
  id : String
  name : String
  followers : Int
  popularity : Int
deriving DecidableEq, Repr

/-- A row of the `album_images` table. -/
structure AlbumImageRow where
  albumRowid : Int
  url : String
  width : Int
  height : Int
deriving DecidableEq, Repr

/-- A row of the `artist_images` table. -/
structure ArtistImageRow where
  artistRowid : Int
  url : String
  width : Int
  height : Int
deriving DecidableEq, Repr

/-- A row of the `artist_albums` join table; `indexInAlbum` is nullable. -/
structure ArtistAlbumRow where
  artistRowid : Int
  albumRowid : Int
  indexInAlbum : Option Int
deriving DecidableEq, Repr

/-- A row of the `track_artists` join table. -/
structure TrackArtistRow where
  trackRowid : Int
  artistRowid : Int
deriving DecidableEq, Repr

/-- A row of the `artist_genres` table. -/
structure ArtistGenreRow where
  artistRowid : Int
  genre : String
deriving DecidableEq, Repr

/-- A row of the secondary store's `track_files` table. -/
structure TrackFileRow where
  trackId : String
  hasLyrics : Option Int
  originalTitle : Option String
  versionTitle : Option String
  langJson : Option String
  rolesJson : Option String
deriving DecidableEq, Repr

/-- The two relational stores: the primary catalog tables and the secondary
`track_files` table. -/
structure Store where
  tracks : List TrackRow := []
  albums : List AlbumRow := []
  artists : List ArtistRow := []
  albumImages : List AlbumImageRow := []
  artistImages : List ArtistImageRow := []
  artistAlbums : List ArtistAlbumRow := []
  trackArtists : List TrackArtistRow := []
  artistGenres : List ArtistGenreRow := []
  trackFiles : List TrackFileRow := []
deriving DecidableEq, Repr

/-- One failure flag per query call site of internal/db/db.go; a set flag
makes that query return an error (e.g. the store being unreachable). -/
structure Faults where
  isrcQ : Bool := false
  trackQ : Bool := false
  trackFilesQ : Bool := false
  artistQ : Bool := false
  albumQ : Bool := false
  searchArtistQ : Bool := false
  searchTrackQ : Bool := false
  trackArtistsQ : Bool := false
  albumArtistsQ : Bool := false
  artistGenresQ : Bool := false
  albumImagesQ : Bool := false
  artistImagesQ : Bool := false
  batchIsrcQ : Bool := false
  batchAlbumImagesQ : Bool := false
  batchAlbumArtistsQ : Bool := false
  batchTrackArtistsQ : Bool := false
  batchArtistGenresQ : Bool := false
  batchArtistImagesQ : Bool := false
  batchTrackFilesQ : Bool := false
deriving DecidableEq, Repr

/-- All queries healthy. -/
def noFaults : Faults := {}

/-- The db.DB handle: the stores plus which query sites currently fail. -/
structure Conn where
  store : Store
  faults : Faults := noFaults
deriving DecidableEq, Repr

/-! ### Single-entity queries, from internal/db/db.go -/

/-- Projection of an `album_images` row onto the selected columns. -/
def toImage (r : AlbumImageRow) : Image :=
  { url := r.url, width := r.width, height := r.height }

/-- Projection of an `artist_images` row onto the selected columns. -/
def toImageA (r : ArtistImageRow) : Image :=
  { url := r.url, width := r.width, height := r.height }

/-- The album columns scanned into models.Album (sql.NullString gives ""). -/
def mkAlbumBase (a : AlbumRow) : Album :=
  { id := a.id, name := a.name, albumType := a.albumType, label := a.label,
    releaseDate := a.releaseDate,
    releaseDatePrecision := a.releaseDatePrecision,
    upc := a.upc.getD "", totalTracks := a.totalTracks,
    copyrightC := a.copyrightC.getD "", copyrightP := a.copyrightP.getD "" }

/-- The track columns scanned into models.Track (sql.NullString gives ""). -/
def mkTrackBase (t : TrackRow) : Track :=
  { id := t.id, name := t.name, isrc := t.isrc.getD "",
    durationMs := t.durationMs, explicit := t.explicit,
    trackNum := t.trackNumber, discNum := t.discNumber,
    popularity := t.popularity, previewUrl := t.previewUrl.getD "" }

/-- The inner join `tracks t JOIN albums a ON t.album_rowid = a.rowid`
(rowids are unique, so the join resolves each track to at most one album). -/
structure TrackAlbumRow where
  track : TrackRow
  album : AlbumRow
deriving DecidableEq, Repr

def joinTracksAlbums (s : Store) : List TrackAlbumRow :=
  s.tracks.filterMap fun t =>
    (s.albums.find? (fun a => decide (a.rowid = t.albumRowid))).map
      fun a => { track := t, album := a }

/-- getAlbumImages: `SELECT DISTINCT url, width, height FROM album_images
WHERE album_rowid = ? ORDER BY width DESC`. -/
def getAlbumImages (c : Conn) (albumRowid : Int) : Except String (List Image) :=
  if c.faults.albumImagesQ then .error "get album images" else
  .ok (List.insertionSort (leKey (fun i => OrderDual.toDual i.width))
    (dedupF ((c.store.albumImages.filter
      (fun r => decide (r.albumRowid = albumRowid))).map toImage)))

/-- getArtistImages: `SELECT url, width, height FROM artist_images
WHERE artist_rowid = ? ORDER BY width DESC` (no DISTINCT). -/
def getArtistImages (c : Conn) (artistRowid : Int) :
    Except String (List Image) :=
  if c.faults.artistImagesQ then .error "get artist images" else
  .ok (List.insertionSort (leKey (fun i => OrderDual.toDual i.width))
    ((c.store.artistImages.filter
      (fun r => decide (r.artistRowid = artistRowid))).map toImageA))

/-- getArtistGenres: `SELECT genre FROM artist_genres WHERE artist_rowid = ?`
(no ORDER BY: table order). -/
def getArtistGenres (c : Conn) (artistRowid : Int) :
    Except String (List String) :=
  if c.faults.artistGenresQ then .error "get artist genres" else
  .ok ((c.store.artistGenres.filter
    (fun r => decide (r.artistRowid = artistRowid))).map (fun r => r.genre))

/-- An artist hydrated the way every scan loop in db.go does it: genre and
image sub-fetch errors are ignored, leaving nil slices. -/
def hydrateArtist (c : Conn) (a : ArtistRow) : Artist :=
  { id := a.id, name := a.name, followers := a.followers,
    popularity := a.popularity,
    genres := exceptD (getArtistGenres c a.rowid) [],
    images := exceptD (getArtistImages c a.rowid) [] }

/-- A row of the join
`artists a JOIN artist_albums aa ON a.rowid = aa.artist_rowid`
restricted to `aa.index_in_album IS NOT NULL`. -/
structure AAJoinRow where
  albumRowid : Int
  artist : ArtistRow
  idx : Int
deriving DecidableEq, Repr

def albumArtistJoin (s : Store) (pAlb : Int → Bool) : List AAJoinRow :=
  s.artistAlbums.filterMap fun aa =>
    if pAlb aa.albumRowid then
      match aa.indexInAlbum with
      | some i =>
        (s.artists.find? (fun a => decide (a.rowid = aa.artistRowid))).map
          fun a => { albumRowid := aa.albumRowid, artist := a, idx := i }
      | none => none
    else none

/-- `MIN(aa.index_in_album)` over one `GROUP BY` group. -/
def minIdxOf (g : AAJoinRow × List AAJoinRow) : Int :=
  g.2.foldl (fun m r => min m r.idx) g.1.idx

/-- getAlbumArtists before hydration: group the join rows of one album by
artist id, aggregate `MIN(index_in_album)`, `ORDER BY idx`. -/
def albumArtistsRanked (s : Store) (albumRowid : Int) :
    List ((AAJoinRow × List AAJoinRow) × Int) :=
  List.insertionSort (leKey (fun g => g.2))
    ((groupAgg (fun r => r.artist.id)
      (albumArtistJoin s (fun rid => decide (rid = albumRowid)))).map
        (fun g => (g, minIdxOf g)))

/-- getAlbumArtists: grouped, min-indexed, index-ordered album performers,
each hydrated with genres and images. -/
def getAlbumArtists (c : Conn) (albumRowid : Int) :
    Except String (List Artist) :=
  if c.faults.albumArtistsQ then .error "get album artists" else
  .ok ((albumArtistsRanked c.store albumRowid).map
    (fun g => hydrateArtist c g.1.1.artist))

/-- A row of the join `artists a JOIN track_artists ta
ON a.rowid = ta.artist_rowid JOIN tracks t ON ta.track_rowid = t.rowid`. -/
structure TAJoinRow where
  trackId : String
  artist : ArtistRow
deriving DecidableEq, Repr

def trackArtistJoin (s : Store) (pTrack : String → Bool) : List TAJoinRow :=
  s.trackArtists.filterMap fun ta =>
    match s.tracks.find? (fun t => decide (t.rowid = ta.trackRowid)) with
    | none => none
    | some t =>
      if pTrack t.id then
        (s.artists.find? (fun a => decide (a.rowid = ta.artistRowid))).map
          fun a => { trackId := t.id, artist := a }
      else none

/-- getTrackArtists (no ORDER BY: join order). -/
def getTrackArtists (c : Conn) (trackId : String) :
    Except String (List Artist) :=
  if c.faults.trackArtistsQ then .error "get track artists" else
  .ok ((trackArtistJoin c.store (fun tid => decide (tid = trackId))).map
    (fun r => hydrateArtist c r.artist))

/-- The field updates performed by enrichTrackFromFiles after a successful
scan of the track_files row. -/
def applyTrackFileRow (t : Track) (row : TrackFileRow) : Track :=
  { t with
    hasLyrics := match row.hasLyrics with
      | some v => some (decide (v = 1))
      | none => t.hasLyrics,
    originalTitle := row.originalTitle.getD "",
    versionTitle := row.versionTitle.getD "",
    languages :=
      if (row.langJson.getD "") ≠ "" then
        (parseJsonStringList (row.langJson.getD "")).getD t.languages
      else t.languages,
    artistRoles :=
      if (row.rolesJson.getD "") ≠ "" then
        (parseJsonStringList (row.rolesJson.getD "")).getD t.artistRoles
      else t.artistRoles }

/-- enrichTrackFromFiles: a QueryRow against the secondary store; any error
(store unreachable, or no row) leaves the track unchanged. -/
def enrichTrackFromFiles (c : Conn) (t : Track) : Track :=
  if c.faults.trackFilesQ then t else
  match c.store.trackFiles.find? (fun r => decide (r.trackId = t.id)) with
  | none => t
  | some row => applyTrackFileRow t row

/-- scanTrackWithAlbum: build the track with its album, the album's images
and artists (sub-fetch errors logged and ignored), its own artists
(error ignored), then the annotation overlay. -/
def scanTrackWithAlbum (c : Conn) (r : TrackAlbumRow) : Track :=
  let alb := { mkAlbumBase r.album with
    images := exceptD (getAlbumImages c r.album.rowid) [],
    artists := exceptD (getAlbumArtists c r.album.rowid) [] }
  let t := { mkTrackBase r.track with
    album := some alb,
    artists := exceptD (getTrackArtists c r.track.id) [] }
  enrichTrackFromFiles c t

/-- LookupISRC: joined track/album rows for one ISRC,
`ORDER BY t.popularity DESC`, each scanned and hydrated. -/
def lookupISRC (c : Conn) (isrc : String) : Except String (List Track) :=
  if c.faults.isrcQ then .error "query isrc" else
  .ok ((List.insertionSort
      (leKey (fun r : TrackAlbumRow => OrderDual.toDual r.track.popularity))
      ((joinTracksAlbums c.store).filter
        (fun r => decide (r.track.isrc = some isrc)))).map
    (scanTrackWithAlbum c))

/-- LookupTrack: the first joined row with the given track id, or an
explicit not-found `none`. -/
def lookupTrack (c : Conn) (id : String) : Except String (Option Track) :=
  if c.faults.trackQ then .error "query track" else
  match (joinTracksAlbums c.store).find? (fun r => decide (r.track.id = id)) with
  | none => .ok none
  | some r => .ok (some (scanTrackWithAlbum c r))

/-- LookupArtist: explicit not-found `none` on sql.ErrNoRows. -/
def lookupArtist (c : Conn) (id : String) : Except String (Option Artist) :=
  if c.faults.artistQ then .error "scan artist" else
  match c.store.artists.find? (fun a => decide (a.id = id)) with
  | none => .ok none
  | some a => .ok (some (hydrateArtist c a))

/-- LookupAlbum: explicit not-found `none` on sql.ErrNoRows. -/
def lookupAlbum (c : Conn) (id : String) : Except String (Option Album) :=
  if c.faults.albumQ then .error "scan album" else
  match c.store.albums.find? (fun a => decide (a.id = id)) with
  | none => .ok none
  | some a => .ok (some { mkAlbumBase a with
      images := exceptD (getAlbumImages c a.rowid) [],
      artists := exceptD (getAlbumArtists c a.rowid) [] })

/-- Case-insensitive containment of `pat` in `hay`:
`LIKE '%' || pat || '%' COLLATE NOCASE`. -/
def seqContains [DecidableEq α] (pat : List α) : List α → Bool
  | [] => pat.isEmpty
  | x :: xs => pat.isPrefixOf (x :: xs) || seqContains pat xs

def likeContains (hay pat : String) : Bool :=
  seqContains pat.toLower.data hay.toLower.data

/-- SearchArtist: limit clamped to 20 outside 1..50, name substring match,
`ORDER BY followers_total DESC LIMIT ?`. -/
def searchArtist (c : Conn) (q : String) (limit : Int) :
    Except String (List Artist) :=
  let lim := if limit ≤ 0 ∨ limit > 50 then (20 : Int) else limit
  if c.faults.searchArtistQ then .error "search artist" else
  .ok (((List.insertionSort
      (leKey (fun a : ArtistRow => OrderDual.toDual a.followers))
      (c.store.artists.filter (fun a => likeContains a.name q))).take
    lim.toNat).map (hydrateArtist c))

/-- SearchTrack: limit clamped to 20 outside 1..50, name substring match,
`ORDER BY t.popularity DESC LIMIT ?`. -/
def searchTrack (c : Conn) (q : String) (limit : Int) :
    Except String (List Track) :=
  let lim := if limit ≤ 0 ∨ limit > 50 then (20 : Int) else limit
  if c.faults.searchTrackQ then .error "search track" else
  .ok (((List.insertionSort
      (leKey (fun r : TrackAlbumRow => OrderDual.toDual r.track.popularity))
      ((joinTracksAlbums c.store).filter
        (fun r => likeContains r.track.name q))).take
    lim.toNat).map (scanTrackWithAlbum c))

/-! ### Batch operations, from internal/db/db.go -/

/-- BatchLookupTracks: per-id sequential resolution; an id whose lookup
errors is logged and skipped; the function itself never returns an error. -/
def batchLookupTracks (c : Conn) (ids : List String) :
    Except String (List (String × Track)) :=
  .ok (ids.foldl (fun m id =>
    match lookupTrack c id with
    | .error _ => m
    | .ok none => m
    | .ok (some t) => assocInsert m id t) [])

/-- BatchLookupArtists: per-id sequential, errors skipped, never fails. -/
def batchLookupArtists (c : Conn) (ids : List String) :
    Except String (List (String × Artist)) :=
  .ok (ids.foldl (fun m id =>
    match lookupArtist c id with
    | .error _ => m
    | .ok none => m
    | .ok (some a) => assocInsert m id a) [])

/-- BatchLookupAlbums: per-id sequential, errors skipped, never fails. -/
def batchLookupAlbums (c : Conn) (ids : List String) :
    Except String (List (String × Album)) :=
  .ok (ids.foldl (fun m id =>
    match lookupAlbum c id with
    | .error _ => m
    | .ok none => m
    | .ok (some a) => assocInsert m id a) [])

/-- batchGetAlbumImages query rows: `SELECT DISTINCT album_rowid, url, width,
height FROM album_images WHERE album_rowid IN (...) ORDER BY album_rowid,
width DESC`. -/
def batchAlbumImageRows (s : Store) (rowids : List Int) : List AlbumImageRow :=
  List.insertionSort
    (leLex (fun r : AlbumImageRow => r.albumRowid)
      (fun r => OrderDual.toDual r.width))
    (dedupF (s.albumImages.filter (fun r => rowids.contains r.albumRowid)))

/-- batchGetAlbumImages: rows grouped into a map by album rowid. -/
def batchGetAlbumImages (c : Conn) (rowids : List Int) :
    Except String (List (Int × List Image)) :=
  if rowids.isEmpty then .ok [] else
  if c.faults.batchAlbumImagesQ then .error "batch get album images" else
  .ok (collectBy (fun r => r.albumRowid) toImage
    (batchAlbumImageRows c.store rowids))

/-- batchGetAlbumArtists before grouping into the map: grouped by
`(album_rowid, artist id)` with `MIN(index_in_album)`,
`ORDER BY album_rowid, idx`. -/
def albumArtistsRankedB (s : Store) (rowids : List Int) :
    List ((AAJoinRow × List AAJoinRow) × Int) :=
  List.insertionSort
    (leLex (fun g : (AAJoinRow × List AAJoinRow) × Int => g.1.1.albumRowid)
      (fun g => g.2))
    ((groupAgg (fun r => (r.albumRowid, r.artist.id))
      (albumArtistJoin s (fun rid => rowids.contains rid))).map
        (fun g => (g, minIdxOf g)))

/-- batchGetAlbumArtists: the per-album map of artist rows (with rowids for
the later genre/image joins), plus the set of artist rowids seen. -/
def batchGetAlbumArtists (c : Conn) (rowids : List Int) :
    Except String (List (Int × List ArtistRow) × List Int) :=
  if rowids.isEmpty then .ok ([], []) else
  if c.faults.batchAlbumArtistsQ then .error "batch get album artists" else
  let ranked := albumArtistsRankedB c.store rowids
  .ok (collectBy (fun g => g.1.1.albumRowid) (fun g => g.1.1.artist) ranked,
    ranked.map (fun g => g.1.1.artist.rowid))

/-- batchGetTrackArtists: the per-track map of artist rows plus the artist
rowids seen (no ORDER BY: join order). -/
def batchGetTrackArtists (c : Conn) (trackIds : List String) :
    Except String (List (String × List ArtistRow) × List Int) :=
  if trackIds.isEmpty then .ok ([], []) else
  if c.faults.batchTrackArtistsQ then .error "batch get track artists" else
  let rows := trackArtistJoin c.store (fun tid => trackIds.contains tid)
  .ok (collectBy (fun r => r.trackId) (fun r => r.artist) rows,
    rows.map (fun r => r.artist.rowid))

/-- batchGetArtistGenres (no ORDER BY: table order). -/
def batchGetArtistGenres (c : Conn) (rowids : List Int) :
    Except String (List (Int × List String)) :=
  if rowids.isEmpty then .ok [] else
  if c.faults.batchArtistGenresQ then .error "batch get artist genres" else
  .ok (collectBy (fun r => r.artistRowid) (fun r => r.genre)
    (c.store.artistGenres.filter (fun r => rowids.contains r.artistRowid)))

/-- batchGetArtistImages: `ORDER BY artist_rowid, width DESC`
(no DISTINCT). -/
def batchGetArtistImages (c : Conn) (rowids : List Int) :
    Except String (List (Int × List Image)) :=
  if rowids.isEmpty then .ok [] else
  if c.faults.batchArtistImagesQ then .error "batch get artist images" else
  .ok (collectBy (fun r => r.artistRowid) toImageA
    (List.insertionSort
      (leLex (fun r : ArtistImageRow => r.artistRowid)
        (fun r => OrderDual.toDual r.width))
      (c.store.artistImages.filter (fun r => rowids.contains r.artistRowid))))

/-- The trackFileData record of db.go. -/
structure TrackFileData where
  hasLyrics : Option Bool := none
  originalTitle : String := ""
  versionTitle : String := ""
  languages : List String := []
  artistRoles : List String := []
deriving DecidableEq, Repr

/-- Scanning one track_files row into trackFileData. -/
def toTrackFileData (row : TrackFileRow) : TrackFileData :=
  { hasLyrics := row.hasLyrics.map (fun v => decide (v = 1)),
    originalTitle := row.originalTitle.getD "",
    versionTitle := row.versionTitle.getD "",
    languages :=
      if (row.langJson.getD "") ≠ "" then
        (parseJsonStringList (row.langJson.getD "")).getD []
      else [],
    artistRoles :=
      if (row.rolesJson.getD "") ≠ "" then
        (parseJsonStringList (row.rolesJson.getD "")).getD []
      else [] }

/-- batchEnrichTrackFiles: one IN query on the secondary store; rows written
into a map keyed by track id (a later duplicate row overwrites). -/
def batchEnrichTrackFiles (c : Conn) (trackIds : List String) :
    Except String (List (String × TrackFileData)) :=
  if trackIds.isEmpty then .ok [] else
  if c.faults.batchTrackFilesQ then .error "batch enrich track files" else
  .ok (collectLast (fun r => r.trackId) toTrackFileData
    (c.store.trackFiles.filter (fun r => trackIds.contains r.trackId)))

/-- Step 1 of BatchLookupISRCs: the joined track/album rows for the ISRC
set, `ORDER BY t.external_id_isrc, t.popularity DESC`. -/
def qBatchTracksByISRCs (s : Store) (isrcs : List String) :
    List TrackAlbumRow :=
  List.insertionSort
    (leLex (fun r : TrackAlbumRow => r.track.isrc.getD "")
      (fun r => OrderDual.toDual r.track.popularity))
    ((joinTracksAlbums s).filter (fun r =>
      match r.track.isrc with
      | some x => isrcs.contains x
      | none => false))

/-- The per-artist hydration of the reassembly loop:
`artists[j].Genres = artistGenres[rowid]; artists[j].Images =
artistImages[rowid]` (a missing key gives the nil slice). -/
def hydrateArtistB (artistGenres : List (Int × List String))
    (artistImages : List (Int × List Image)) (a : ArtistRow) : Artist :=
  { id := a.id, name := a.name, followers := a.followers,
    popularity := a.popularity,
    genres := (assocGet artistGenres a.rowid).getD [],
    images := (assocGet artistImages a.rowid).getD [] }

/-- The Go idiom `if artists, ok := m[key]; ok { ... }`: a present map entry
is hydrated and attached, an absent one leaves the nil slice. -/
def mapOrNil (o : Option (List ArtistRow)) (h : ArtistRow → Artist) :
    List Artist :=
  match o with
  | none => []
  | some l => l.map h

/-- Step 8 of BatchLookupISRCs: hydrate one joined row from the batched
sub-fetch maps (a missing map key leaves the nil slice / unset fields). -/
def assembleTrack (albumImages : List (Int × List Image))
    (albumArtists : List (Int × List ArtistRow))
    (trackArtists : List (String × List ArtistRow))
    (artistGenres : List (Int × List String))
    (artistImages : List (Int × List Image))
    (trackFilesData : List (String × TrackFileData))
    (r : TrackAlbumRow) : Track :=
  let alb := { mkAlbumBase r.album with
    images := (assocGet albumImages r.album.rowid).getD [],
    artists := mapOrNil (assocGet albumArtists r.album.rowid)
      (hydrateArtistB artistGenres artistImages) }
  let t := { mkTrackBase r.track with
    album := some alb,
    artists := mapOrNil (assocGet trackArtists r.track.id)
      (hydrateArtistB artistGenres artistImages) }
  match assocGet trackFilesData r.track.id with
  | none => t
  | some tf =>
    { t with
      hasLyrics := tf.hasLyrics, originalTitle := tf.originalTitle,
      versionTitle := tf.versionTitle, languages := tf.languages,
      artistRoles := tf.artistRoles }

/-- Outcome of a Go call as seen by its caller: a returned value, a
returned error, or a runtime abort — a panic that unwinds past the caller,
killing the request without a response. -/
inductive GoResult (α : Type) where
  | ok : α → GoResult α
  | err : String → GoResult α
  | abort : String → GoResult α
deriving DecidableEq, Repr

/-- Functorial map on the returned value of a `GoResult`. -/
def GoResult.map (f : α → β) : GoResult α → GoResult β
  | .ok a => .ok (f a)
  | .err e => .err e
  | .abort m => .abort m

/-- A call that can return an error but has no abort path, seen as a
`GoResult`. -/
def GoResult.ofExcept : Except String α → GoResult α
  | .ok a => .ok a
  | .error e => .err e

/-- The returned value, if any. -/
def GoResult.toOption : GoResult α → Option α
  | .ok a => some a
  | _ => none

/-- Whether the call returned a value. -/
def GoResult.isOk : GoResult α → Bool
  | .ok _ => true
  | _ => false

/-- Whether the call aborted (panicked). -/
def GoResult.isAbort : GoResult α → Bool
  | .abort _ => true
  | _ => false

/-- Whether a fallible call returned an error (in Go, `err != nil`). -/
def isErr : Except ε α → Bool
  | .error _ => true
  | .ok _ => false

/-- db.go 585-590: after the album-artists and track-artists batch fetches,
their artist-rowid sets are merged with `for rowid := range
trackArtistRowIDs { artistRowIDs[rowid] = true }`.  When
batchGetAlbumArtists failed it returned a nil `artistRowIDs` map, and the
first write into a nil map panics — which happens exactly when the
track-artists fetch produced at least one rowid. -/
def nilMapWrite (c : Conn) (albumRowids : List Int)
    (trackIds : List String) : Bool :=
  isErr (batchGetAlbumArtists c albumRowids) &&
    !(exceptD (batchGetTrackArtists c trackIds) ([], [])).2.isEmpty

/-- BatchLookupISRCs: step-1 joined query (fatal on failure), batched
sub-fetches degraded to empty on failure — except that a failed
album-artists fetch leaves a nil artist-rowid map, and the merge loop
panics (aborts the call) as soon as the track-artists fetch returned
rowids — then per-ISRC reassembly. -/
def batchLookupISRCs (c : Conn) (isrcs : List String) :
    GoResult (List (String × List Track)) :=
  if isrcs.isEmpty then .ok [] else
  if c.faults.batchIsrcQ then .err "batch query isrcs" else
  let joined := qBatchTracksByISRCs c.store isrcs
  if joined.isEmpty then .ok [] else
  let albumRowids := joined.map (fun r => r.album.rowid)
  let trackIds := joined.map (fun r => r.track.id)
  if nilMapWrite c albumRowids trackIds then
    .abort "assignment to entry in nil map" else
  let albumImages := exceptD (batchGetAlbumImages c albumRowids) []
  let aa := exceptD (batchGetAlbumArtists c albumRowids) ([], [])
  let ta := exceptD (batchGetTrackArtists c trackIds) ([], [])
  let artistRowids := aa.2 ++ ta.2
  let artistGenres := exceptD (batchGetArtistGenres c artistRowids) []
  let artistImages := exceptD (batchGetArtistImages c artistRowids) []
  let trackFilesData := exceptD (batchEnrichTrackFiles c trackIds) []
  let assembled := joined.map (assembleTrack albumImages aa.1 ta.1
    artistGenres artistImages trackFilesData)
  .ok (assembled.foldl (fun m t => assocUpdAppend m t.isrc t) [])

/-! ### The multi-category batch handler, from internal/api/handlers.go -/

/-- batchLookup: validation, then the four categories resolved
independently; a returned error is recorded in the per-category error map,
while a panic in a category (the nil-map write in BatchLookupISRCs)
unwinds past the handler and aborts the whole request, response and
completed categories included. -/
def batchLookup (c : Conn) (req : BatchLookupRequest) :
    GoResult BatchLookupResponse :=
  let total := req.tracks.length + req.artists.length + req.albums.length +
    req.isrcs.length
  if total = 0 then .err "at least one lookup type required"
  else if total > 400 then .err "maximum 400 total items allowed"
  else
    let tRes := if req.tracks.isEmpty then (none, ([] : List (String × String)))
      else match batchLookupTracks c req.tracks with
        | .ok m => (some m, [])
        | .error _ => (none, [("tracks", "failed to lookup some tracks")])
    let aRes := if req.artists.isEmpty then (none, tRes.2)
      else match batchLookupArtists c req.artists with
        | .ok m => (some m, tRes.2)
        | .error _ =>
          (none, tRes.2 ++ [("artists", "failed to lookup some artists")])
    let bRes := if req.albums.isEmpty then (none, aRes.2)
      else match batchLookupAlbums c req.albums with
        | .ok m => (some m, aRes.2)
        | .error _ =>
          (none, aRes.2 ++ [("albums", "failed to lookup some albums")])
    if req.isrcs.isEmpty then
      .ok { tracks := tRes.1, artists := aRes.1, albums := bRes.1,
            isrcs := none, errors := bRes.2 }
    else match batchLookupISRCs c req.isrcs with
      | .ok m =>
        .ok { tracks := tRes.1, artists := aRes.1, albums := bRes.1,
              isrcs := some m, errors := bRes.2 }
      | .err _ =>
        .ok { tracks := tRes.1, artists := aRes.1, albums := bRes.1,
              isrcs := none,
              errors := bRes.2 ++ [("isrcs", "failed to lookup some isrcs")] }
      | .abort msg => .abort msg

/-! ### Concrete sample data used by witnesses and counterexamples -/

/-- A small concrete catalog exercising duplicates, null indexes, shared
ISRCs and annotation rows. -/
def sampleStore : Store :=
  { tracks := [
      { rowid := 301, id := "tr1", name := "Song A", isrc := some "ISRC1",
        durationMs := 1000, explicit := false, trackNumber := 1,
        discNumber := 1, popularity := 50, previewUrl := none,
        albumRowid := 201 },
      { rowid := 302, id := "tr2", name := "Song B", isrc := some "ISRC1",
        durationMs := 2000, explicit := false, trackNumber := 2,
        discNumber := 1, popularity := 70, previewUrl := none,
        albumRowid := 201 },
      { rowid := 303, id := "tr3", name := "Other", isrc := some "ISRC2",
        durationMs := 3000, explicit := true, trackNumber := 1,
        discNumber := 1, popularity := 10, previewUrl := some "pv",
        albumRowid := 201 }],
    albums := [
      { rowid := 201, id := "al1", name := "Album One", albumType := "album",
        label := "Label", releaseDate := "2020-01-01",
        releaseDatePrecision := "day", upc := some "U1", totalTracks := 3,
        copyrightC := none, copyrightP := some "P" }],
    artists := [
      { rowid := 101, id := "ar1", name := "Alice", followers := 1000,
        popularity := 80 },
      { rowid := 102, id := "ar2", name := "Bob", followers := 500,
        popularity := 60 },
      { rowid := 103, id := "ar3", name := "Carol", followers := 200,
        popularity := 40 }],
    albumImages := [
      { albumRowid := 201, url := "u300", width := 300, height := 300 },
      { albumRowid := 201, url := "u640", width := 640, height := 640 },
      { albumRowid := 201, url := "u640", width := 640, height := 640 }],
    artistImages := [
      { artistRowid := 101, url := "ai1", width := 640, height := 640 },
      { artistRowid := 101, url := "ai1", width := 640, height := 640 },
      { artistRowid := 102, url := "ai2", width := 300, height := 300 }],
    artistAlbums := [
      { artistRowid := 103, albumRowid := 201, indexInAlbum := some 2 },
      { artistRowid := 101, albumRowid := 201, indexInAlbum := some 0 },
      { artistRowid := 102, albumRowid := 201, indexInAlbum := none },
      { artistRowid := 103, albumRowid := 201, indexInAlbum := some 1 }],
    trackArtists := [
      { trackRowid := 301, artistRowid := 101 },
      { trackRowid := 301, artistRowid := 102 },
      { trackRowid := 302, artistRowid := 101 }],
    artistGenres := [
      { artistRowid := 101, genre := "pop" },
      { artistRowid := 101, genre := "rock" },
      { artistRowid := 102, genre := "jazz" }],
    trackFiles := [
      { trackId := "tr1", hasLyrics := some 1, originalTitle := some "Orig",
        versionTitle := none, langJson := some "[\"en\", \"fr\"]",
        rolesJson := some "notjson" },
      { trackId := "tr2", hasLyrics := some 0, originalTitle := none,
        versionTitle := none, langJson := some "", rolesJson := none }] }

/-- A minimal catalog exhibiting the nil-map panic: one track with an ISRC
and one track-level artist attachment (so the track-artists fetch returns a
rowid), no album-artist rows needed. -/
def c5Store : Store :=
  { tracks := [
      { rowid := 1, id := "t1", name := "T", isrc := some "I1",
        durationMs := 100, explicit := false, trackNumber := 1,
        discNumber := 1, popularity := 5, previewUrl := none,
        albumRowid := 9 }],
    albums := [
      { rowid := 9, id := "a1", name := "A", albumType := "album",
        label := "L", releaseDate := "2020", releaseDatePrecision := "year",
        upc := none, totalTracks := 1, copyrightC := none,
        copyrightP := none }],
    artists := [
      { rowid := 7, id := "ar1", name := "N", followers := 1,
        popularity := 2 }],
    albumImages := [], artistImages := [], artistAlbums := [],
    trackArtists := [{ trackRowid := 1, artistRowid := 7 }],
    artistGenres := [], trackFiles := [] }

/-- The sample catalog with every query healthy. -/
def sampleConn : Conn := { store := sampleStore }

/-- A bare track value used as input in concrete witnesses. -/
def sampleTrack : Track :=
  { id := "tr9", name := "Loose", durationMs := 10, explicit := false,
    trackNum := 1, discNum := 1, popularity := 3 }

/-! ### Small observation helpers for the claim statements -/

/-- Whether a fallible call succeeded. -/
def isOk : Except ε α → Bool
  | .ok _ => true
  | .error _ => false

/-- Open, from db.go: sql.Open only parses the DSN and does not touch the
files, so an absent or unreachable secondary (track_files) store still
yields a handle; its unreachability surfaces only at query time, modelled
by the two track-files fault flags. -/
def openDB (s : Store) (secondaryUnreachable : Bool) : Except String Conn :=
  .ok { store := s,
        faults := { noFaults with
          trackFilesQ := secondaryUnreachable,
          batchTrackFilesQ := secondaryUnreachable } }

/-- Every query site failing (e.g. both stores unreachable). -/
def allFaults : Faults :=
  { isrcQ := true, trackQ := true, trackFilesQ := true, artistQ := true,
    albumQ := true, searchArtistQ := true, searchTrackQ := true,
    trackArtistsQ := true, albumArtistsQ := true, artistGenresQ := true,
    albumImagesQ := true, artistImagesQ := true, batchIsrcQ := true,
    batchAlbumImagesQ := true, batchAlbumArtistsQ := true,
    batchTrackArtistsQ := true, batchArtistGenresQ := true,
    batchArtistImagesQ := true, batchTrackFilesQ := true }

/-- A healthy connection on the same catalog whose annotation table is
empty: the behavioural twin of a connection with an unreachable secondary
store. -/
def degradedConn (s : Store) (f : Faults) : Conn :=
  { store := { s with trackFiles := [] },
    faults := { f with trackFilesQ := false, batchTrackFilesQ := false } }

/-! ### Theorems -/

theorem leKey_total [LinearOrder β] (k : α → β) (a b : α) :
    leKey k a b ∨ leKey k b a := le_total _ _

theorem leKey_trans [LinearOrder β] (k : α → β) {a b c : α}
    (h1 : leKey k a b) (h2 : leKey k b c) : leKey k a c := le_trans h1 h2

theorem leLex_total [LinearOrder β] [LinearOrder γ] (k1 : α → β) (k2 : α → γ)
    (a b : α) : leLex k1 k2 a b ∨ leLex k1 k2 b a := by
  rcases lt_trichotomy (k1 a) (k1 b) with h | h | h
  · exact Or.inl (Or.inl h)
  · rcases le_total (k2 a) (k2 b) with h2 | h2
    · exact Or.inl (Or.inr ⟨h, h2⟩)
    · exact Or.inr (Or.inr ⟨h.symm, h2⟩)
  · exact Or.inr (Or.inl h)

theorem leLex_trans [LinearOrder β] [LinearOrder γ] (k1 : α → β) (k2 : α → γ)
    {a b c : α} (h1 : leLex k1 k2 a b) (h2 : leLex k1 k2 b c) :
    leLex k1 k2 a c := by
  rcases h1 with h1 | ⟨h1e, h1le⟩
  · rcases h2 with h2 | ⟨h2e, _⟩
    · exact Or.inl (lt_trans h1 h2)
    · exact Or.inl (h2e ▸ h1)
  · rcases h2 with h2 | ⟨h2e, h2le⟩
    · exact Or.inl (h1e ▸ h2)
    · exact Or.inr ⟨h1e.trans h2e, le_trans h1le h2le⟩

/-- On elements whose first sort key is fixed, the two-key order coincides
with the order by the second key alone. -/
theorem leLex_eq_leKey [LinearOrder β] [LinearOrder γ] (k1 : α → β)
    (k2 : α → γ) {a b : α} (h : k1 a = k1 b) :
    leLex k1 k2 a b ↔ leKey k2 a b := by
  constructor
  · rintro (hlt | ⟨_, hle⟩)
    · exact absurd h hlt.ne
    · exact hle
  · intro hle
    exact Or.inr ⟨h, hle⟩

/-! ### Commutation lemmas: restricting a batched query to one key gives the
corresponding single-key query -/

theorem filter_orderedInsert_neg (p : α → Bool) (r : α → α → Prop)
    [DecidableRel r] (x : α) (hx : p x = false) (l : List α) :
    (List.orderedInsert r x l).filter p = l.filter p := by
  induction l with
  | nil => simp [List.orderedInsert, hx]
  | cons y ys ih =>
    by_cases h : r x y
    · simp [List.orderedInsert, h, List.filter_cons, hx]
    · simp only [List.orderedInsert, if_neg h, List.filter_cons]
      by_cases hy : p y <;> simp [hy, ih]

theorem orderedInsert_eq_cons_of_head (r : α → α → Prop) [DecidableRel r]
    (x : α) (l : List α) (h : ∀ z, l.head? = some z → r x z) :
    List.orderedInsert r x l = x :: l := by
  cases l with
  | nil => rfl
  | cons y ys => exact List.orderedInsert_of_le r ys (h y rfl)

theorem filter_orderedInsert_pos (p : α → Bool) (r1 r2 : α → α → Prop)
    [DecidableRel r1] [DecidableRel r2]
    (htrans : ∀ a b c, r2 a b → r2 b c → r2 a c)
    (hagree : ∀ a b, p a = true → p b = true → (r2 a b ↔ r1 a b))
    (x : α) (hx : p x = true) (l : List α) (hs : List.Sorted r2 l) :
    (List.orderedInsert r2 x l).filter p =
      List.orderedInsert r1 x (l.filter p) := by
  induction l with
  | nil => simp [List.orderedInsert, hx]
  | cons y ys ih =>
    rcases List.sorted_cons.mp hs with ⟨hy_rel, hys⟩
    by_cases h : r2 x y
    · by_cases hy : p y
      · have h1 : r1 x y := (hagree x y hx hy).mp h
        simp [List.orderedInsert, h, List.filter_cons, hx, hy,
          List.orderedInsert_of_le r1 _ h1]
      · have hcons : List.orderedInsert r1 x (ys.filter p) =
            x :: ys.filter p := by
          refine orderedInsert_eq_cons_of_head r1 x (ys.filter p) ?_
          intro z hz
          have hz_mem : z ∈ ys.filter p := by
            cases hmem : ys.filter p with
            | nil => simp [hmem] at hz
            | cons a as =>
              simp only [hmem, List.head?_cons, Option.some.injEq] at hz
              simp [hmem, hz]
          have hz_ys : z ∈ ys := List.mem_of_mem_filter hz_mem
          have hz_p : p z = true := List.of_mem_filter hz_mem
          exact (hagree x z hx hz_p).mp (htrans x y z h (hy_rel z hz_ys))
        simp [List.orderedInsert, h, List.filter_cons, hx, hy, hcons]
    · by_cases hy : p y
      · have h1 : ¬ r1 x y := fun hc => h ((hagree x y hx hy).mpr hc)
        simp [List.orderedInsert, h, List.filter_cons, hy, h1, ih hys]
      · simp [List.orderedInsert, h, List.filter_cons, hy, ih hys]

/-- Filtering a stable sort is the stable sort of the filtered list, when the
sort relations agree on the kept elements.  This is the heart of the
batch-versus-single equivalences: a batched `ORDER BY key1, key2` restricted
to one value of `key1` is the single query's `ORDER BY key2`. -/
theorem filter_insertionSort (p : α → Bool) (r1 r2 : α → α → Prop)
    [DecidableRel r1] [DecidableRel r2]
    (htot : ∀ a b, r2 a b ∨ r2 b a)
    (htrans : ∀ a b c, r2 a b → r2 b c → r2 a c)
    (hagree : ∀ a b, p a = true → p b = true → (r2 a b ↔ r1 a b))
    (l : List α) :
    (List.insertionSort r2 l).filter p =
      List.insertionSort r1 (l.filter p) := by
  induction l with
  | nil => rfl
  | cons x xs ih =>
    have hsorted : List.Sorted r2 (List.insertionSort r2 xs) := by
      letI : IsTotal α r2 := ⟨htot⟩
      letI : IsTrans α r2 := ⟨htrans⟩
      exact List.sorted_insertionSort r2 xs
    by_cases hx : p x
    · simp only [List.insertionSort, List.filter_cons, hx, if_pos]
      rw [filter_orderedInsert_pos p r1 r2 htrans hagree x hx _ hsorted, ih]
    · simp only [List.insertionSort, List.filter_cons, hx, Bool.false_eq_true,
        if_false]
      rw [filter_orderedInsert_neg p r2 x (by simp [hx]), ih]

theorem map_orderedInsert (f : α → β) (r : α → α → Prop) (r' : β → β → Prop)
    [DecidableRel r] [DecidableRel r']
    (hrel : ∀ a b, r a b ↔ r' (f a) (f b)) (x : α) (l : List α) :
    (List.orderedInsert r x l).map f =
      List.orderedInsert r' (f x) (l.map f) := by
  induction l with
  | nil => rfl
  | cons y ys ih =>
    by_cases h : r x y
    · simp [List.orderedInsert, h, (hrel x y).mp h]
    · have h' : ¬ r' (f x) (f y) := fun hc => h ((hrel x y).mpr hc)
      simp [List.orderedInsert, h, h', ih]

theorem map_insertionSort (f : α → β) (r : α → α → Prop) (r' : β → β → Prop)
    [DecidableRel r] [DecidableRel r']
    (hrel : ∀ a b, r a b ↔ r' (f a) (f b)) (l : List α) :
    (List.insertionSort r l).map f = List.insertionSort r' (l.map f) := by
  induction l with
  | nil => rfl
  | cons x xs ih =>
    simp only [List.insertionSort, List.map_cons]
    rw [map_orderedInsert f r r' hrel, ih]

theorem mem_insertionSort (r : α → α → Prop) [DecidableRel r] {a : α}
    {l : List α} : a ∈ List.insertionSort r l ↔ a ∈ l :=
  (List.perm_insertionSort r l).mem_iff

theorem pairwise_insertionSort (r : α → α → Prop) [DecidableRel r]
    (htot : ∀ a b, r a b ∨ r b a) (htrans : ∀ a b c, r a b → r b c → r a c)
    (l : List α) : (List.insertionSort r l).Pairwise r := by
  letI : IsTotal α r := ⟨htot⟩
  letI : IsTrans α r := ⟨htrans⟩
  exact List.sorted_insertionSort r l

theorem dedupF_nil [DecidableEq α] : dedupF ([] : List α) = [] := by
  simp [dedupF]

theorem groupAgg_nil [DecidableEq κ] (key : α → κ) :
    groupAgg key ([] : List α) = [] := by
  simp [groupAgg]

theorem mem_dedupF [DecidableEq α] {a : α} :
    ∀ {l : List α}, a ∈ dedupF l ↔ a ∈ l := by
  intro l
  induction l using dedupF.induct with
  | case1 => simp [dedupF]
  | case2 x xs ih =>
    simp only [dedupF, List.mem_cons, ih, List.mem_filter, decide_eq_true_eq]
    constructor
    · rintro (rfl | ⟨h, _⟩)
      · exact Or.inl rfl
      · exact Or.inr h
    · rintro (rfl | h)
      · exact Or.inl rfl
      · by_cases hax : a = x
        · exact Or.inl hax
        · exact Or.inr ⟨h, hax⟩

theorem nodup_dedupF [DecidableEq α] : ∀ (l : List α), (dedupF l).Nodup := by
  intro l
  induction l using dedupF.induct with
  | case1 => simp [dedupF]
  | case2 x xs ih =>
    simp only [dedupF, List.nodup_cons]
    refine ⟨fun hmem => ?_, ih⟩
    have := mem_dedupF.mp hmem
    simp only [List.mem_filter, decide_eq_true_eq] at this
    exact this.2 rfl

theorem filter_dedupF [DecidableEq α] (p : α → Bool) :
    ∀ (l : List α), (dedupF l).filter p = dedupF (l.filter p) := by
  intro l
  induction l using dedupF.induct with
  | case1 => simp [dedupF]
  | case2 x xs ih =>
    by_cases hx : p x
    · simp only [dedupF, List.filter_cons, hx, if_pos, ih]
      refine congrArg _ (congrArg dedupF ?_)
      rw [List.filter_filter, List.filter_filter]
      apply List.filter_congr
      intro y _
      exact Bool.and_comm _ _
    · simp only [dedupF, List.filter_cons, hx, Bool.false_eq_true, if_false,
        ih]
      refine congrArg dedupF ?_
      rw [List.filter_filter]
      apply List.filter_congr
      intro y _
      by_cases hyx : y = x
      · subst hyx
        simp [hx]
      · simp [hyx]

theorem map_dedupF [DecidableEq α] [DecidableEq β] (f : α → β) :
    ∀ (l : List α), (∀ a ∈ l, ∀ b ∈ l, f a = f b → a = b) →
      dedupF (l.map f) = (dedupF l).map f := by
  intro l
  induction l using dedupF.induct with
  | case1 => simp [dedupF]
  | case2 x xs ih =>
    intro hinj
    simp only [List.map_cons, dedupF, List.cons.injEq, true_and]
    have hfilter : (xs.map f).filter (fun z => decide (z ≠ f x)) =
        (xs.filter (fun y => decide (y ≠ x))).map f := by
      rw [List.filter_map]
      refine congrArg (List.map f) ?_
      apply List.filter_congr
      intro y hy
      simp only [Function.comp_apply, decide_eq_decide]
      constructor
      · intro hne hyx
        exact hne (hyx ▸ rfl)
      · intro hne hfyx
        exact hne (hinj y (List.mem_cons_of_mem _ hy) x (List.mem_cons_self _ _) hfyx)
    rw [hfilter]
    apply ih
    intro a ha b hb
    exact hinj a (List.mem_cons_of_mem _ (List.mem_of_mem_filter ha))
      b (List.mem_cons_of_mem _ (List.mem_of_mem_filter hb))

theorem groupAgg_congrKey [DecidableEq κ] [DecidableEq κ'] (key1 : α → κ)
    (key2 : α → κ') :
    ∀ (l : List α),
      (∀ a ∈ l, ∀ b ∈ l, (key1 a = key1 b ↔ key2 a = key2 b)) →
      groupAgg key1 l = groupAgg key2 l := by
  intro l
  induction l using groupAgg.induct key1 with
  | case1 => simp [groupAgg]
  | case2 x xs ih =>
    intro hiff
    have hgrp : xs.filter (fun y => decide (key1 y = key1 x)) =
        xs.filter (fun y => decide (key2 y = key2 x)) := by
      apply List.filter_congr
      intro y hy
      simp only [decide_eq_decide]
      exact hiff y (List.mem_cons_of_mem _ hy) x (List.mem_cons_self _ _)
    have hrest : xs.filter (fun y => decide (key1 y ≠ key1 x)) =
        xs.filter (fun y => decide (key2 y ≠ key2 x)) := by
      apply List.filter_congr
      intro y hy
      simp only [decide_eq_decide, ne_eq, not_iff_not]
      exact hiff y (List.mem_cons_of_mem _ hy) x (List.mem_cons_self _ _)
    simp only [groupAgg, hgrp, List.cons.injEq, true_and]
    rw [← hrest]
    apply ih
    intro a ha b hb
    exact hiff a (List.mem_cons_of_mem _ (List.mem_of_mem_filter ha))
      b (List.mem_cons_of_mem _ (List.mem_of_mem_filter hb))

theorem groupAgg_filter [DecidableEq κ] (key : α → κ) (p : α → Bool)
    (hresp : ∀ a b, key a = key b → p a = p b) :
    ∀ (l : List α),
      (groupAgg key l).filter (fun g => p g.1) = groupAgg key (l.filter p) := by
  intro l
  induction l using groupAgg.induct key with
  | case1 => simp [groupAgg]
  | case2 x xs ih =>
    by_cases hx : p x
    · have hgrp : (xs.filter p).filter (fun y => decide (key y = key x)) =
          xs.filter (fun y => decide (key y = key x)) := by
        rw [List.filter_filter]
        apply List.filter_congr
        intro y _
        by_cases hk : key y = key x
        · have : p y = true := (hresp y x hk).symm ▸ hx
          simp [hk, this]
        · simp [hk]
      have hrest : (xs.filter p).filter (fun y => decide (key y ≠ key x)) =
          (xs.filter (fun y => decide (key y ≠ key x))).filter p := by
        rw [List.filter_filter, List.filter_filter]
        apply List.filter_congr
        intro y _
        exact Bool.and_comm _ _
      simp only [groupAgg, List.filter_cons, hx, if_pos, hgrp, hrest,
        List.cons.injEq, true_and, ih]
    · have hdrop : (xs.filter (fun y => decide (key y ≠ key x))).filter p =
          xs.filter p := by
        rw [List.filter_filter]
        apply List.filter_congr
        intro y _
        by_cases hk : key y = key x
        · have : p y = false := by
            rw [hresp y x hk]
            exact Bool.eq_false_iff.mpr hx
          simp [this]
        · simp [hk]
      simp only [groupAgg, List.filter_cons, hx, Bool.false_eq_true, if_false,
        ih, hdrop]

theorem groupAgg_rep_mem [DecidableEq κ] (key : α → κ) :
    ∀ {l : List α} {g : α × List α}, g ∈ groupAgg key l → g.1 ∈ l := by
  intro l
  induction l using groupAgg.induct key with
  | case1 => simp [groupAgg]
  | case2 x xs ih =>
    intro g hg
    simp only [groupAgg, List.mem_cons] at hg
    rcases hg with rfl | hg
    · exact List.mem_cons_self _ _
    · exact List.mem_cons_of_mem _ (List.mem_of_mem_filter (ih hg))

theorem groupAgg_groups [DecidableEq κ] (key : α → κ) :
    ∀ {l : List α} {g : α × List α}, g ∈ groupAgg key l →
      g.2 = l.filter (fun y => decide (key y = key g.1)) := by
  intro l
  induction l using groupAgg.induct key with
  | case1 => simp [groupAgg]
  | case2 x xs ih =>
    intro g hg
    simp only [groupAgg, List.mem_cons] at hg
    rcases hg with rfl | hg
    · simp [List.filter_cons]
    · have hrep : g.1 ∈ xs.filter (fun y => decide (key y ≠ key x)) :=
        groupAgg_rep_mem key hg
      have hkey : key g.1 ≠ key x := by
        have := List.of_mem_filter hrep
        simpa using this
      rw [ih hg, List.filter_filter, List.filter_cons]
      have hx : ¬ key x = key g.1 := fun h => hkey h.symm
      simp only [decide_eq_true_eq, hx, if_false]
      apply List.filter_congr
      intro y _
      by_cases hk : key y = key g.1
      · have : key y ≠ key x := fun h => hkey (hk ▸ h)
        simp [hk, this, hkey]
      · simp [hk]

theorem assocGet_nil [DecidableEq κ] (k : κ) :
    assocGet ([] : List (κ × β)) k = none := rfl

theorem assocGet_cons [DecidableEq κ] (e : κ × β) (m : List (κ × β)) (k : κ) :
    assocGet (e :: m) k = if e.1 = k then some e.2 else assocGet m k := by
  by_cases h : e.1 = k
  · simp [assocGet, List.find?_cons_of_pos, h]
  · simp [assocGet, List.find?_cons_of_neg, h]

theorem assocGet_updAppend [DecidableEq κ] (m : List (κ × List β)) (k k' : κ)
    (v : β) :
    assocGet (assocUpdAppend m k v) k' =
      if k' = k then some ((assocGet m k).getD [] ++ [v])
      else assocGet m k' := by
  induction m with
  | nil =>
    by_cases h : k' = k
    · subst h
      simp [assocUpdAppend, assocGet_cons, assocGet_nil]
    · have h2 : ¬ k = k' := fun hc => h hc.symm
      simp [assocUpdAppend, assocGet_cons, assocGet_nil, h, h2]
  | cons e rest ih =>
    obtain ⟨ek, evs⟩ := e
    by_cases hek : ek = k
    · subst hek
      by_cases h : k' = ek
      · subst h
        simp [assocUpdAppend, assocGet_cons]
      · have h2 : ¬ ek = k' := fun hc => h hc.symm
        simp [assocUpdAppend, assocGet_cons, h, h2]
    · by_cases h : k' = ek
      · subst h
        have h2 : ¬ k' = k := fun hc => hek (hc ▸ rfl)
        simp [assocUpdAppend, hek, assocGet_cons, h2]
      · have h' : ¬ ek = k' := fun hc => h hc.symm
        simp only [assocUpdAppend, if_neg hek, assocGet_cons, h',
          if_false, ih]

theorem assocGet_insert [DecidableEq κ] (m : List (κ × β)) (k k' : κ) (v : β) :
    assocGet (assocInsert m k v) k' =
      if k' = k then some v else assocGet m k' := by
  induction m with
  | nil =>
    by_cases h : k' = k
    · subst h
      simp [assocInsert, assocGet_cons]
    · have h2 : ¬ k = k' := fun hc => h hc.symm
      simp [assocInsert, assocGet_cons, assocGet_nil, h, h2]
  | cons e rest ih =>
    obtain ⟨ek, ev⟩ := e
    by_cases hek : ek = k
    · subst hek
      by_cases h : k' = ek
      · subst h
        simp [assocInsert, assocGet_cons]
      · have h2 : ¬ ek = k' := fun hc => h hc.symm
        simp [assocInsert, assocGet_cons, h, h2]
    · by_cases h : k' = ek
      · subst h
        have h2 : ¬ k' = k := fun hc => hek (hc ▸ rfl)
        simp [assocInsert, hek, assocGet_cons, h2]
      · have h' : ¬ ek = k' := fun hc => h hc.symm
        simp only [assocInsert, if_neg hek, assocGet_cons, h', if_false, ih]

theorem assocGet_foldl_updAppend [DecidableEq κ] (key : α → κ) (val : α → β)
    (k : κ) :
    ∀ (l : List α) (m : List (κ × List β)),
      assocGet (l.foldl (fun m x => assocUpdAppend m (key x) (val x)) m) k =
        optAppend (assocGet m k)
          ((l.filter (fun x => decide (key x = k))).map val) := by
  intro l
  induction l with
  | nil =>
    intro m
    cases h : assocGet m k <;> simp [optAppend, h]
  | cons x xs ih =>
    intro m
    simp only [List.foldl_cons, ih, List.filter_cons]
    by_cases hk : key x = k
    · simp only [hk, decide_True, if_pos, List.map_cons]
      rw [assocGet_updAppend, if_pos rfl]
      cases h : assocGet m k with
      | none =>
        simp only [h, optAppend, Option.getD_none, List.nil_append]
        cases (xs.filter (fun x => decide (key x = k))).map val <;> rfl
      | some vs =>
        simp only [h, optAppend, Option.getD_some]
        cases (xs.filter (fun x => decide (key x = k))).map val with
        | nil => simp
        | cons b bs => simp
    · have : (decide (key x = k)) = false := by simp [hk]
      simp only [this, Bool.false_eq_true, if_false]
      rw [assocGet_updAppend, if_neg (fun h => hk h.symm)]

/-- Looking up a key in a map built by append-collection gives exactly the
values of the rows with that key, in row order; absent when there are none. -/
theorem assocGet_collectBy [DecidableEq κ] (key : α → κ) (val : α → β)
    (l : List α) (k : κ) :
    assocGet (collectBy key val l) k =
      optAppend none ((l.filter (fun x => decide (key x = k))).map val) := by
  rw [collectBy, assocGet_foldl_updAppend]
  rfl

theorem assocGet_foldl_insert_of_absent [DecidableEq κ] (key : α → κ)
    (val : α → β) (k : κ) :
    ∀ (l : List α) (m : List (κ × β)), (∀ x ∈ l, key x ≠ k) →
      assocGet (l.foldl (fun m x => assocInsert m (key x) (val x)) m) k =
        assocGet m k := by
  intro l
  induction l with
  | nil => intro m _; rfl
  | cons x xs ih =>
    intro m habs
    simp only [List.foldl_cons]
    rw [ih _ (fun y hy => habs y (List.mem_cons_of_mem _ hy)),
      assocGet_insert, if_neg]
    intro h
    exact habs x (List.mem_cons_self _ _) h.symm

/-- When at most one row carries the key, last-write-wins collection agrees
with the first matching row (`find?`), i.e. with a `QueryRow` lookup. -/
theorem assocGet_collectLast_unique [DecidableEq κ] (key : α → κ)
    (val : α → β) (k : κ) :
    ∀ (l : List α),
      (l.filter (fun x => decide (key x = k))).length ≤ 1 →
      assocGet (collectLast key val l) k =
        (l.find? (fun x => decide (key x = k))).map val := by
  have main : ∀ (l : List α) (m : List (κ × β)),
      (l.filter (fun x => decide (key x = k))).length ≤ 1 →
      assocGet (l.foldl (fun m x => assocInsert m (key x) (val x)) m) k =
        optOr ((l.find? (fun x => decide (key x = k))).map val)
          (assocGet m k) := by
    intro l
    induction l with
    | nil => intro m _; rfl
    | cons x xs ih =>
      intro m huniq
      simp only [List.foldl_cons]
      by_cases hk : key x = k
      · have hflen : (xs.filter (fun x => decide (key x = k))).length = 0 := by
          simp only [List.filter_cons, hk, decide_True, if_pos,
            List.length_cons] at huniq
          omega
        have hnone : ∀ y ∈ xs, key y ≠ k := by
          intro y hy hc
          have hmem : y ∈ xs.filter (fun x => decide (key x = k)) :=
            List.mem_filter.mpr ⟨hy, by simp [hc]⟩
          rw [List.length_eq_zero.mp hflen] at hmem
          exact absurd hmem (List.not_mem_nil y)
        rw [assocGet_foldl_insert_of_absent key val k xs _ hnone,
          assocGet_insert, if_pos hk.symm]
        simp [List.find?, hk, optOr]
      · have hdk : (decide (key x = k)) = false := by simp [hk]
        have huniq' : (xs.filter (fun x => decide (key x = k))).length ≤ 1 := by
          simpa [List.filter_cons, hdk] using huniq
        rw [ih _ huniq']
        simp only [List.find?, hdk]
        rw [assocGet_insert, if_neg (fun h => hk h.symm)]
  intro l h
  rw [collectLast, main l [] h]
  cases (l.find? (fun x => decide (key x = k))).map val <;> rfl

theorem mapOrNil_eq_getD (o : Option (List ArtistRow)) (h : ArtistRow → Artist) :
    mapOrNil o h = (o.getD []).map h := by
  cases o <;> rfl

/-! ### Bridging lemmas: batched queries restricted to one key agree with
the single-entity queries -/

theorem contains_iff_mem [BEq α] [LawfulBEq α] {l : List α} {a : α} :
    l.contains a = true ↔ a ∈ l := List.elem_iff

theorem matchOpt_eq_getD_map (o : Option (List β)) (h : β → γ) :
    (match o with
     | none => ([] : List γ)
     | some xs => xs.map h) = (o.getD []).map h := by
  cases o <;> rfl

/-- The value of an append-collected map at a key is the filtered row list,
mapped. -/
theorem assocGet_collectBy_getD [DecidableEq κ] (key : α → κ) (val : α → β)
    (l : List α) (k : κ) :
    (assocGet (collectBy key val l) k).getD [] =
      (l.filter (fun x => decide (key x = k))).map val := by
  rw [assocGet_collectBy]
  cases (l.filter (fun x => decide (key x = k))).map val <;> rfl

theorem mem_joinTracksAlbums {s : Store} {r : TrackAlbumRow}
    (h : r ∈ joinTracksAlbums s) : r.track ∈ s.tracks ∧ r.album ∈ s.albums := by
  unfold joinTracksAlbums at h
  obtain ⟨t, ht, heq⟩ := List.mem_filterMap.mp h
  cases hf : s.albums.find? (fun a => decide (a.rowid = t.albumRowid)) with
  | none => rw [hf] at heq; cases heq
  | some a =>
    rw [hf] at heq
    cases heq
    exact ⟨ht, List.mem_of_find?_eq_some hf⟩

theorem mem_albumArtistJoin {s : Store} {p : Int → Bool} {row : AAJoinRow}
    (h : row ∈ albumArtistJoin s p) :
    p row.albumRowid = true ∧ row.artist ∈ s.artists ∧
      ∃ aa ∈ s.artistAlbums, aa.albumRowid = row.albumRowid ∧
        aa.artistRowid = row.artist.rowid ∧
        aa.indexInAlbum = some row.idx := by
  unfold albumArtistJoin at h
  obtain ⟨aa, haa, heq⟩ := List.mem_filterMap.mp h
  by_cases hp : p aa.albumRowid
  · rw [if_pos hp] at heq
    cases hidx : aa.indexInAlbum with
    | none => rw [hidx] at heq; cases heq
    | some i =>
      rw [hidx] at heq
      cases hf : s.artists.find? (fun a => decide (a.rowid = aa.artistRowid)) with
      | none => rw [hf] at heq; cases heq
      | some a =>
        rw [hf] at heq
        cases heq
        have hro : a.rowid = aa.artistRowid := by
          have := List.find?_some hf
          simpa using this
        exact ⟨hp, List.mem_of_find?_eq_some hf,
          aa, haa, rfl, hro.symm, hidx⟩
  · rw [if_neg hp] at heq; cases heq

theorem mem_trackArtistJoin {s : Store} {p : String → Bool} {row : TAJoinRow}
    (h : row ∈ trackArtistJoin s p) :
    p row.trackId = true ∧ row.artist ∈ s.artists := by
  unfold trackArtistJoin at h
  obtain ⟨ta, hta, heq⟩ := List.mem_filterMap.mp h
  cases hft : s.tracks.find? (fun t => decide (t.rowid = ta.trackRowid)) with
  | none => rw [hft] at heq; cases heq
  | some t =>
    rw [hft] at heq
    dsimp only at heq
    by_cases hp : p t.id
    · rw [if_pos hp] at heq
      cases hfa : s.artists.find? (fun a => decide (a.rowid = ta.artistRowid)) with
      | none => rw [hfa] at heq; cases heq
      | some a =>
        rw [hfa] at heq
        cases heq
        exact ⟨hp, List.mem_of_find?_eq_some hfa⟩
    · rw [if_neg hp] at heq; cases heq

/-- Filtering the album-artist join on the album key refines its album
predicate. -/
theorem albumArtistJoin_filter (s : Store) (p : Int → Bool) (r : Int) :
    (albumArtistJoin s p).filter (fun row => decide (row.albumRowid = r)) =
      albumArtistJoin s (fun rid => p rid && decide (rid = r)) := by
  unfold albumArtistJoin
  induction s.artistAlbums with
  | nil => rfl
  | cons aa tl ih =>
    simp only [List.filterMap_cons]
    by_cases hp : p aa.albumRowid
    · cases hidx : aa.indexInAlbum with
      | none =>
        by_cases hr : aa.albumRowid = r <;>
          simp [hp, hidx, hr, ih]
      | some i =>
        cases hf : s.artists.find? (fun a => decide (a.rowid = aa.artistRowid)) with
        | none =>
          by_cases hr : aa.albumRowid = r <;>
            simp [hp, hidx, hr, hf, ih]
        | some a =>
          by_cases hr : aa.albumRowid = r
          · have hp2 : p r = true := hr ▸ hp
            simp [hp, hp2, hidx, hr, hf, ih, List.filter_cons]
          · simp [hp, hidx, hr, hf, ih, List.filter_cons]
    · by_cases hr : aa.albumRowid = r
      · have hp2 : ¬ p r = true := hr ▸ hp
        simp [hp, hp2, hr, ih]
      · simp [hp, hr, ih]

theorem albumArtistJoin_congr (s : Store) (p q : Int → Bool)
    (h : ∀ rid, p rid = q rid) :
    albumArtistJoin s p = albumArtistJoin s q := by
  unfold albumArtistJoin
  exact List.filterMap_congr (fun aa _ => by rw [h aa.albumRowid])

/-- The filtered batch album-artist join for a requested album is the
single-album join. -/
theorem albumArtistJoin_batch_restrict (s : Store) (rowids : List Int)
    (r : Int) (hr : rowids.contains r = true) :
    (albumArtistJoin s (fun rid => rowids.contains rid)).filter
        (fun row => decide (row.albumRowid = r)) =
      albumArtistJoin s (fun rid => decide (rid = r)) := by
  rw [albumArtistJoin_filter]
  apply albumArtistJoin_congr
  intro rid
  by_cases hrid : rid = r
  · subst hrid
    simp [contains_iff_mem.mp hr]
  · simp [hrid]

theorem trackArtistJoin_filter (s : Store) (p : String → Bool) (id : String) :
    (trackArtistJoin s p).filter (fun row => decide (row.trackId = id)) =
      trackArtistJoin s (fun tid => p tid && decide (tid = id)) := by
  unfold trackArtistJoin
  induction s.trackArtists with
  | nil => rfl
  | cons ta tl ih =>
    simp only [List.filterMap_cons]
    cases hft : s.tracks.find? (fun t => decide (t.rowid = ta.trackRowid)) with
    | none => simp [hft, ih]
    | some t =>
      by_cases hp : p t.id
      · cases hfa : s.artists.find? (fun a => decide (a.rowid = ta.artistRowid)) with
        | none =>
          by_cases hr : t.id = id <;> simp [hft, hp, hfa, hr, ih]
        | some a =>
          by_cases hr : t.id = id
          · have hp2 : p id = true := hr ▸ hp
            simp [hft, hp, hp2, hfa, hr, ih, List.filter_cons]
          · simp [hft, hp, hfa, hr, ih, List.filter_cons]
      · by_cases hr : t.id = id
        · have hp2 : ¬ p id = true := hr ▸ hp
          simp [hft, hp, hp2, hr, ih]
        · simp [hft, hp, hr, ih]

theorem trackArtistJoin_congr (s : Store) (p q : String → Bool)
    (h : ∀ tid, p tid = q tid) :
    trackArtistJoin s p = trackArtistJoin s q := by
  unfold trackArtistJoin
  refine List.filterMap_congr (fun ta _ => ?_)
  cases s.tracks.find? (fun t => decide (t.rowid = ta.trackRowid)) with
  | none => rfl
  | some t =>
    dsimp only
    rw [h t.id]

theorem trackArtistJoin_batch_restrict (s : Store) (ids : List String)
    (id : String) (hid : ids.contains id = true) :
    (trackArtistJoin s (fun tid => ids.contains tid)).filter
        (fun row => decide (row.trackId = id)) =
      trackArtistJoin s (fun tid => decide (tid = id)) := by
  rw [trackArtistJoin_filter]
  apply trackArtistJoin_congr
  intro tid
  by_cases htid : tid = id
  · subst htid
    simp [contains_iff_mem.mp hid]
  · simp [htid]

/-- The batched album-image map at a requested album equals the
single-album image query. -/
theorem batchAlbumImages_value (c : Conn) (rowids : List Int) (r : Int)
    (hr : rowids.contains r = true) (hq : c.faults.albumImagesQ = false) :
    (assocGet (collectBy (fun rr => rr.albumRowid) toImage
        (batchAlbumImageRows c.store rowids)) r).getD [] =
      exceptD (getAlbumImages c r) [] := by
  rw [assocGet_collectBy_getD]
  unfold batchAlbumImageRows getAlbumImages
  rw [hq]
  simp only [Bool.false_eq_true, if_false, exceptD]
  rw [filter_insertionSort (fun rr => decide (rr.albumRowid = r))
    (leKey (fun rr : AlbumImageRow => OrderDual.toDual rr.width))
    (leLex (fun rr : AlbumImageRow => rr.albumRowid)
      (fun rr => OrderDual.toDual rr.width))
    (leLex_total _ _) (fun a b c => leLex_trans _ _)
    (fun a b ha hb => by
      rw [decide_eq_true_eq] at ha hb
      exact leLex_eq_leKey _ _ (ha.trans hb.symm))]
  rw [filter_dedupF]
  have habs : (c.store.albumImages.filter
      (fun rr => rowids.contains rr.albumRowid)).filter
        (fun rr => decide (rr.albumRowid = r)) =
      c.store.albumImages.filter (fun rr => decide (rr.albumRowid = r)) := by
    rw [List.filter_filter]
    apply List.filter_congr
    intro x _
    by_cases hx : x.albumRowid = r
    · rw [hx]
      simp [contains_iff_mem.mp hr]
    · simp [hx]
  rw [habs]
  rw [map_insertionSort toImage
    (leKey (fun rr : AlbumImageRow => OrderDual.toDual rr.width))
    (leKey (fun i : Image => OrderDual.toDual i.width))
    (fun a b => Iff.rfl)]
  rw [map_dedupF toImage _ ?inj]
  case inj =>
    intro a ha b hb hab
    have har : a.albumRowid = r := by
      have := List.of_mem_filter ha
      simpa using this
    have hbr : b.albumRowid = r := by
      have := List.of_mem_filter hb
      simpa using this
    cases a
    cases b
    simp only [toImage, Image.mk.injEq] at hab
    simp_all

/-- The batched artist-image map at a requested artist equals the
single-artist image query. -/
theorem batchArtistImages_value (c : Conn) (rowids : List Int) (ρ : Int)
    (hρ : rowids.contains ρ = true) (hq : c.faults.artistImagesQ = false) :
    (assocGet (collectBy (fun rr => rr.artistRowid) toImageA
        (List.insertionSort
          (leLex (fun rr : ArtistImageRow => rr.artistRowid)
            (fun rr => OrderDual.toDual rr.width))
          (c.store.artistImages.filter
            (fun rr => rowids.contains rr.artistRowid)))) ρ).getD [] =
      exceptD (getArtistImages c ρ) [] := by
  rw [assocGet_collectBy_getD]
  unfold getArtistImages
  rw [hq]
  simp only [Bool.false_eq_true, if_false, exceptD]
  rw [filter_insertionSort (fun rr => decide (rr.artistRowid = ρ))
    (leKey (fun rr : ArtistImageRow => OrderDual.toDual rr.width))
    (leLex (fun rr : ArtistImageRow => rr.artistRowid)
      (fun rr => OrderDual.toDual rr.width))
    (leLex_total _ _) (fun a b c => leLex_trans _ _)
    (fun a b ha hb => by
      rw [decide_eq_true_eq] at ha hb
      exact leLex_eq_leKey _ _ (ha.trans hb.symm))]
  have habs : (c.store.artistImages.filter
      (fun rr => rowids.contains rr.artistRowid)).filter
        (fun rr => decide (rr.artistRowid = ρ)) =
      c.store.artistImages.filter (fun rr => decide (rr.artistRowid = ρ)) := by
    rw [List.filter_filter]
    apply List.filter_congr
    intro x _
    by_cases hx : x.artistRowid = ρ
    · rw [hx]
      simp [contains_iff_mem.mp hρ]
    · simp [hx]
  rw [habs]
  rw [map_insertionSort toImageA
    (leKey (fun rr : ArtistImageRow => OrderDual.toDual rr.width))
    (leKey (fun i : Image => OrderDual.toDual i.width))
    (fun a b => Iff.rfl)]

/-- The batched genre map at a requested artist equals the single-artist
genre query. -/
theorem batchArtistGenres_value (c : Conn) (rowids : List Int) (ρ : Int)
    (hρ : rowids.contains ρ = true) (hq : c.faults.artistGenresQ = false) :
    (assocGet (collectBy (fun rr => rr.artistRowid) (fun rr => rr.genre)
        (c.store.artistGenres.filter
          (fun rr => rowids.contains rr.artistRowid))) ρ).getD [] =
      exceptD (getArtistGenres c ρ) [] := by
  rw [assocGet_collectBy_getD]
  unfold getArtistGenres
  rw [hq]
  simp only [Bool.false_eq_true, if_false, exceptD]
  rw [List.filter_filter]
  refine congrArg _ (List.filter_congr ?_)
  intro x _
  by_cases hx : x.artistRowid = ρ
  · rw [hx]
    simp [contains_iff_mem.mp hρ]
  · simp [hx]

/-- The batched track-artist map at a requested track equals the
single-track artist join. -/
theorem batchTrackArtists_value (s : Store) (ids : List String) (id : String)
    (hid : ids.contains id = true) :
    (assocGet (collectBy (fun rr => rr.trackId) (fun rr => rr.artist)
        (trackArtistJoin s (fun tid => ids.contains tid))) id).getD [] =
      (trackArtistJoin s (fun tid => decide (tid = id))).map
        (fun rr => rr.artist) := by
  rw [assocGet_collectBy_getD, trackArtistJoin_batch_restrict s ids id hid]

/-- The batched annotation map at a requested track equals the single-track
annotation row, provided the track has at most one annotation row (the data
model's 0-or-1 Annotation invariant). -/
theorem batchTrackFiles_value (s : Store) (ids : List String) (id : String)
    (hid : ids.contains id = true)
    (huniq : (s.trackFiles.filter
      (fun row => decide (row.trackId = id))).length ≤ 1) :
    assocGet (collectLast (fun row => row.trackId) toTrackFileData
        (s.trackFiles.filter (fun row => ids.contains row.trackId))) id =
      (s.trackFiles.find?
        (fun row => decide (row.trackId = id))).map toTrackFileData := by
  have hsub : ((s.trackFiles.filter
      (fun row => ids.contains row.trackId)).filter
        (fun row => decide (row.trackId = id))).Sublist
      (s.trackFiles.filter (fun row => decide (row.trackId = id))) :=
    List.Sublist.filter _ (List.filter_sublist _)
  rw [assocGet_collectLast_unique _ _ _ _
    (le_trans hsub.length_le huniq)]
  refine congrArg _ ?_
  induction s.trackFiles with
  | nil => rfl
  | cons row tl ih =>
    rw [List.filter_cons]
    by_cases hc : ids.contains row.trackId = true
    · rw [if_pos hc]
      by_cases hrow : row.trackId = id
      · rw [List.find?_cons_of_pos _ (by simp [hrow]),
          List.find?_cons_of_pos _ (by simp [hrow])]
      · rw [List.find?_cons_of_neg _ (by simp [hrow]),
          List.find?_cons_of_neg _ (by simp [hrow]), ih]
    · rw [if_neg hc, ih]
      have hrow : ¬ row.trackId = id := by
        intro h
        rw [h] at hc
        exact hc hid
      rw [List.find?_cons_of_neg _ (by simp [hrow])]

/-- The batched album-artist ranking restricted to one requested album is
the single-album ranking. -/
theorem albumArtistsRanked_restrict (s : Store) (rowids : List Int) (r : Int)
    (hr : rowids.contains r = true) :
    (albumArtistsRankedB s rowids).filter
        (fun g => decide (g.1.1.albumRowid = r)) =
      albumArtistsRanked s r := by
  unfold albumArtistsRankedB albumArtistsRanked
  rw [filter_insertionSort
    (fun g : (AAJoinRow × List AAJoinRow) × Int =>
      decide (g.1.1.albumRowid = r))
    (leKey (fun g : (AAJoinRow × List AAJoinRow) × Int => g.2))
    (leLex (fun g : (AAJoinRow × List AAJoinRow) × Int => g.1.1.albumRowid)
      (fun g => g.2))
    (leLex_total _ _) (fun a b c => leLex_trans _ _)
    (fun a b ha hb => by
      rw [decide_eq_true_eq] at ha hb
      exact leLex_eq_leKey _ _ (ha.trans hb.symm))]
  rw [List.filter_map]
  have hgrp := groupAgg_filter (κ := Int × String) (α := AAJoinRow)
    (fun row => (row.albumRowid, row.artist.id))
    (fun row => decide (row.albumRowid = r))
    (fun a b hk => by
      have h1 : a.albumRowid = b.albumRowid := congrArg Prod.fst hk
      simp only []
      rw [h1])
    (albumArtistJoin s (fun rid => rowids.contains rid))
  rw [show ((fun g : (AAJoinRow × List AAJoinRow) × Int =>
      decide (g.1.1.albumRowid = r)) ∘ (fun g => (g, minIdxOf g))) =
      (fun g : AAJoinRow × List AAJoinRow =>
        decide (g.1.albumRowid = r)) from rfl]
  rw [hgrp, albumArtistJoin_batch_restrict s rowids r hr]
  refine congrArg _ (congrArg _ ?_)
  apply groupAgg_congrKey
  intro a ha b hb
  have har : a.albumRowid = r := by
    have := (mem_albumArtistJoin ha).1
    simpa using this
  have hbr : b.albumRowid = r := by
    have := (mem_albumArtistJoin hb).1
    simpa using this
  constructor
  · intro h
    rw [Prod.mk.injEq] at h
    exact h.2
  · intro h
    rw [Prod.mk.injEq]
    exact ⟨har.trans hbr.symm, h⟩

/-- Hydrating an artist from the batched genre/image maps agrees with the
inline hydration of the single paths. -/
theorem hydrateArtistB_eq (c : Conn) (artistRowids : List Int) (a : ArtistRow)
    (ha : artistRowids.contains a.rowid = true) (hf : c.faults = noFaults) :
    hydrateArtistB (exceptD (batchGetArtistGenres c artistRowids) [])
      (exceptD (batchGetArtistImages c artistRowids) []) a =
      hydrateArtist c a := by
  have hne : artistRowids.isEmpty = false := by
    cases artistRowids
    · simp at ha
    · rfl
  have h1 : c.faults.batchArtistGenresQ = false := by rw [hf]; rfl
  have h2 : c.faults.batchArtistImagesQ = false := by rw [hf]; rfl
  have h3 : c.faults.artistGenresQ = false := by rw [hf]; rfl
  have h4 : c.faults.artistImagesQ = false := by rw [hf]; rfl
  unfold hydrateArtistB hydrateArtist
  have hg : exceptD (batchGetArtistGenres c artistRowids) [] =
      collectBy (fun rr => rr.artistRowid) (fun rr => rr.genre)
        (c.store.artistGenres.filter
          (fun rr => artistRowids.contains rr.artistRowid)) := by
    simp [batchGetArtistGenres, hne, h1, exceptD]
  have hi : exceptD (batchGetArtistImages c artistRowids) [] =
      collectBy (fun rr => rr.artistRowid) toImageA
        (List.insertionSort
          (leLex (fun rr : ArtistImageRow => rr.artistRowid)
            (fun rr => OrderDual.toDual rr.width))
          (c.store.artistImages.filter
            (fun rr => artistRowids.contains rr.artistRowid))) := by
    simp [batchGetArtistImages, hne, h2, exceptD]
  rw [hg, hi, batchArtistGenres_value c artistRowids a.rowid ha h3,
    batchArtistImages_value c artistRowids a.rowid ha h4]

/-- Overlaying a scanned annotation record on a track with default
annotation fields agrees with the single-path field-by-field enrichment. -/
theorem applyRow_defaults (t : Track) (row : TrackFileRow)
    (h1 : t.hasLyrics = none) (h2 : t.languages = ([] : List String))
    (h3 : t.artistRoles = ([] : List String)) :
    applyTrackFileRow t row =
      ({ t with
         hasLyrics := (toTrackFileData row).hasLyrics,
         originalTitle := (toTrackFileData row).originalTitle,
         versionTitle := (toTrackFileData row).versionTitle,
         languages := (toTrackFileData row).languages,
         artistRoles := (toTrackFileData row).artistRoles } : Track) := by
  unfold toTrackFileData applyTrackFileRow
  cases hl : row.hasLyrics <;> simp [h1, h2, h3, hl]

/-- Step 8 of the batch assembly produces, for each joined row, exactly the
track the single-entity scan produces, given that the row's keys were part
of the batched key sets and the annotation table has at most one row for the
track. -/
theorem assembleTrack_eq_scan (c : Conn) (hf : c.faults = noFaults)
    (albumRowids : List Int) (trackIds : List String)
    (artistRowids : List Int) (r : TrackAlbumRow)
    (har : albumRowids.contains r.album.rowid = true)
    (htr : trackIds.contains r.track.id = true)
    (huniq : (c.store.trackFiles.filter
      (fun row => decide (row.trackId = r.track.id))).length ≤ 1)
    (hAA : ∀ g ∈ albumArtistsRanked c.store r.album.rowid,
      artistRowids.contains g.1.1.artist.rowid = true)
    (hTA : ∀ row ∈ trackArtistJoin c.store
      (fun tid => decide (tid = r.track.id)),
      artistRowids.contains row.artist.rowid = true) :
    assembleTrack (exceptD (batchGetAlbumImages c albumRowids) [])
      (exceptD (batchGetAlbumArtists c albumRowids) ([], [])).1
      (exceptD (batchGetTrackArtists c trackIds) ([], [])).1
      (exceptD (batchGetArtistGenres c artistRowids) [])
      (exceptD (batchGetArtistImages c artistRowids) [])
      (exceptD (batchEnrichTrackFiles c trackIds) [])
      r = scanTrackWithAlbum c r := by
  have hane : albumRowids.isEmpty = false := by
    cases albumRowids
    · simp at har
    · rfl
  have htne : trackIds.isEmpty = false := by
    cases trackIds
    · simp at htr
    · rfl
  have hbImg : c.faults.batchAlbumImagesQ = false := by rw [hf]; rfl
  have hbAA : c.faults.batchAlbumArtistsQ = false := by rw [hf]; rfl
  have hbTA : c.faults.batchTrackArtistsQ = false := by rw [hf]; rfl
  have hbTF : c.faults.batchTrackFilesQ = false := by rw [hf]; rfl
  have hsImg : c.faults.albumImagesQ = false := by rw [hf]; rfl
  have hsAA : c.faults.albumArtistsQ = false := by rw [hf]; rfl
  have hsTA : c.faults.trackArtistsQ = false := by rw [hf]; rfl
  have hsTF : c.faults.trackFilesQ = false := by rw [hf]; rfl
  have himg : (assocGet (exceptD (batchGetAlbumImages c albumRowids) [])
      r.album.rowid).getD [] = exceptD (getAlbumImages c r.album.rowid) [] := by
    have h : exceptD (batchGetAlbumImages c albumRowids) [] =
        collectBy (fun rr => rr.albumRowid) toImage
          (batchAlbumImageRows c.store albumRowids) := by
      simp [batchGetAlbumImages, hane, hbImg, exceptD]
    rw [h, batchAlbumImages_value c albumRowids r.album.rowid har hsImg]
  have halbA :
      mapOrNil (assocGet (exceptD (batchGetAlbumArtists c albumRowids)
          ([], [])).1 r.album.rowid)
        (hydrateArtistB
          (exceptD (batchGetArtistGenres c artistRowids) [])
          (exceptD (batchGetArtistImages c artistRowids) [])) =
      exceptD (getAlbumArtists c r.album.rowid) [] := by
    have h : (exceptD (batchGetAlbumArtists c albumRowids) ([], [])).1 =
        collectBy (fun g => g.1.1.albumRowid) (fun g => g.1.1.artist)
          (albumArtistsRankedB c.store albumRowids) := by
      simp [batchGetAlbumArtists, hane, hbAA, exceptD]
    rw [mapOrNil_eq_getD, h, assocGet_collectBy_getD,
      albumArtistsRanked_restrict c.store albumRowids r.album.rowid har,
      List.map_map]
    unfold getAlbumArtists
    rw [hsAA]
    simp only [Bool.false_eq_true, if_false, exceptD]
    apply List.map_congr_left
    intro g hg
    exact hydrateArtistB_eq c artistRowids g.1.1.artist (hAA g hg) hf
  have htrkA :
      mapOrNil (assocGet (exceptD (batchGetTrackArtists c trackIds)
          ([], [])).1 r.track.id)
        (hydrateArtistB
          (exceptD (batchGetArtistGenres c artistRowids) [])
          (exceptD (batchGetArtistImages c artistRowids) [])) =
      exceptD (getTrackArtists c r.track.id) [] := by
    have h : (exceptD (batchGetTrackArtists c trackIds) ([], [])).1 =
        collectBy (fun rr => rr.trackId) (fun rr => rr.artist)
          (trackArtistJoin c.store (fun tid => trackIds.contains tid)) := by
      simp [batchGetTrackArtists, htne, hbTA, exceptD]
    rw [mapOrNil_eq_getD, h,
      batchTrackArtists_value c.store trackIds r.track.id htr, List.map_map]
    unfold getTrackArtists
    rw [hsTA]
    simp only [Bool.false_eq_true, if_false, exceptD]
    apply List.map_congr_left
    intro row hrow
    exact hydrateArtistB_eq c artistRowids row.artist (hTA row hrow) hf
  have htf : assocGet (exceptD (batchEnrichTrackFiles c trackIds) [])
      r.track.id = (c.store.trackFiles.find?
        (fun row => decide (row.trackId = r.track.id))).map toTrackFileData := by
    have h : exceptD (batchEnrichTrackFiles c trackIds) [] =
        collectLast (fun row => row.trackId) toTrackFileData
          (c.store.trackFiles.filter
            (fun row => trackIds.contains row.trackId)) := by
      simp [batchEnrichTrackFiles, htne, hbTF, exceptD]
    rw [h]
    exact batchTrackFiles_value c.store trackIds r.track.id htr huniq
  unfold assembleTrack scanTrackWithAlbum
  rw [himg, halbA, htrkA, htf]
  unfold enrichTrackFromFiles
  rw [hsTF]
  simp only [Bool.false_eq_true, if_false, mkTrackBase]
  cases hfind : c.store.trackFiles.find?
      (fun row => decide (row.trackId = r.track.id)) with
  | none => rfl
  | some row =>
    dsimp only [Option.map]
    rw [applyRow_defaults] <;> rfl

theorem optAppend_none_getD (g : List β) : (optAppend none g).getD [] = g := by
  cases g <;> rfl

/-- Reassembly does not change the ISRC key of a joined row. -/
theorem assembleTrack_isrc (ai : List (Int × List Image))
    (aa : List (Int × List ArtistRow)) (ta : List (String × List ArtistRow))
    (ag : List (Int × List String)) (am : List (Int × List Image))
    (tf : List (String × TrackFileData)) (r : TrackAlbumRow) :
    (assembleTrack ai aa ta ag am tf r).isrc = r.track.isrc.getD "" := by
  unfold assembleTrack
  cases assocGet tf r.track.id <;> rfl

theorem isErr_batchGetAlbumArtists (c : Conn)
    (h : c.faults.batchAlbumArtistsQ = false) (L : List Int) :
    isErr (batchGetAlbumArtists c L) = false := by
  unfold batchGetAlbumArtists
  by_cases hE : L.isEmpty
  · simp [hE, isErr]
  · simp [hE, h, isErr]

/-- With a healthy album-artists batch query the artist-rowid map is
non-nil, so the merge loop cannot panic. -/
theorem nilMapWrite_healthy (c : Conn)
    (h : c.faults.batchAlbumArtistsQ = false) (A : List Int)
    (T : List String) : nilMapWrite c A T = false := by
  unfold nilMapWrite
  rw [isErr_batchGetAlbumArtists c h A]
  rfl

/-- The core equivalence: the batched ISRC resolution, read at any requested
ISRC, is exactly the single-entity ISRC resolution, provided the queries are
healthy and each recording has at most one annotation row. -/
theorem lookupISRC_eq_batch_key (c : Conn) (hf : c.faults = noFaults)
    (huniq : ∀ id : String, (c.store.trackFiles.filter
      (fun row => decide (row.trackId = id))).length ≤ 1)
    (isrcs : List String) (isrc : String) (hmem : isrc ∈ isrcs) :
    GoResult.map (fun m => (assocGet m isrc).getD [])
      (batchLookupISRCs c isrcs) = GoResult.ofExcept (lookupISRC c isrc) := by
  have hbq : c.faults.batchIsrcQ = false := by rw [hf]; rfl
  have hsq : c.faults.isrcQ = false := by rw [hf]; rfl
  have hbaa : c.faults.batchAlbumArtistsQ = false := by rw [hf]; rfl
  have hne : isrcs.isEmpty = false := by
    cases isrcs
    · cases hmem
    · rfl
  have hmemb : isrcs.contains isrc = true := contains_iff_mem.mpr hmem
  unfold batchLookupISRCs lookupISRC qBatchTracksByISRCs
  rw [hbq, hsq, hne]
  simp only [Bool.false_eq_true, if_false]
  set pIn : TrackAlbumRow → Bool := fun rr =>
    match rr.track.isrc with
    | some x => isrcs.contains x
    | none => false with hpIn
  set pOne : TrackAlbumRow → Bool := fun rr =>
    decide (rr.track.isrc = some isrc) with hpOne
  have himp : ∀ rr, pOne rr = true → pIn rr = true := by
    intro rr h
    rw [hpOne] at h
    rw [decide_eq_true_eq] at h
    rw [hpIn]
    simp only [h]
    exact hmemb
  cases hje : (List.insertionSort
      (leLex (fun r : TrackAlbumRow => r.track.isrc.getD "")
        (fun r => OrderDual.toDual r.track.popularity))
      ((joinTracksAlbums c.store).filter pIn)).isEmpty with
  | true =>
    have hnil : (joinTracksAlbums c.store).filter pIn = [] := by
      have h1 := List.isEmpty_iff.mp hje
      have hp := List.perm_insertionSort
        (leLex (fun r : TrackAlbumRow => r.track.isrc.getD "")
          (fun r => OrderDual.toDual r.track.popularity))
        ((joinTracksAlbums c.store).filter pIn)
      rw [h1] at hp
      exact hp.symm.eq_nil
    have hnil2 : (joinTracksAlbums c.store).filter pOne = [] := by
      rw [List.filter_eq_nil_iff]
      intro a ha hpa
      have := List.filter_eq_nil_iff.mp hnil a ha
      exact this (himp a hpa)
    rw [hnil2]
    simp only [List.insertionSort, List.map_nil, if_pos]
    rfl
  | false =>
    simp only [Bool.false_eq_true, if_false]
    rw [nilMapWrite_healthy c hbaa]
    simp only [Bool.false_eq_true, if_false, GoResult.map, GoResult.ofExcept]
    refine congrArg GoResult.ok ?_
    rw [assocGet_foldl_updAppend (fun t : Track => t.isrc) (fun t => t) isrc,
      assocGet_nil, optAppend_none_getD]
    have hjoined_mem : ∀ rr ∈ List.insertionSort
        (leLex (fun r : TrackAlbumRow => r.track.isrc.getD "")
          (fun r => OrderDual.toDual r.track.popularity))
        ((joinTracksAlbums c.store).filter pIn), pIn rr = true := by
      intro rr hrr
      exact List.of_mem_filter (mem_insertionSort _ |>.mp hrr)
    rw [List.filter_map]
    have hpred : ∀ (ma : List (Int × List Image))
        (mb : List (Int × List ArtistRow))
        (mc : List (String × List ArtistRow)) (md : List (Int × List String))
        (me : List (Int × List Image)) (mf : List (String × TrackFileData)),
        ∀ rr ∈ List.insertionSort
          (leLex (fun r : TrackAlbumRow => r.track.isrc.getD "")
            (fun r => OrderDual.toDual r.track.popularity))
          ((joinTracksAlbums c.store).filter pIn),
        ((fun t : Track => decide (t.isrc = isrc)) ∘
          (assembleTrack ma mb mc md me mf)) rr = pOne rr := by
      intro ma mb mc md me mf rr hrr
      have hIn := hjoined_mem rr hrr
      simp only [hpIn] at hIn
      simp only [Function.comp_apply, assembleTrack_isrc]
      cases hio : rr.track.isrc with
      | none =>
        simp only [hio] at hIn
        exact absurd hIn (by decide)
      | some x =>
        rw [hpOne]
        simp [hio]
    rw [List.filter_congr (hpred _ _ _ _ _ _)]
    rw [filter_insertionSort pOne
      (leKey (fun r : TrackAlbumRow => OrderDual.toDual r.track.popularity))
      (leLex (fun r : TrackAlbumRow => r.track.isrc.getD "")
        (fun r => OrderDual.toDual r.track.popularity))
      (leLex_total _ _) (fun a b c => leLex_trans _ _)
      (fun a b ha hb => by
        rw [hpOne, decide_eq_true_eq] at ha hb
        refine leLex_eq_leKey _ _ ?_
        simp only [ha, hb])]
    have habs : ((joinTracksAlbums c.store).filter pIn).filter pOne =
        (joinTracksAlbums c.store).filter pOne := by
      rw [List.filter_filter]
      apply List.filter_congr
      intro x _
      by_cases hx : pOne x = true
      · rw [hx, himp x hx]
        rfl
      · rw [Bool.eq_false_iff.mpr hx]
        rfl
    rw [habs, List.map_id']
    apply List.map_congr_left
    intro rr hrr
    have hrr_join : rr ∈ (joinTracksAlbums c.store).filter pIn := by
      have h1 : rr ∈ (joinTracksAlbums c.store).filter pOne :=
        mem_insertionSort _ |>.mp hrr
      have h2 := List.mem_of_mem_filter h1
      have h3 := List.of_mem_filter h1
      exact List.mem_filter.mpr ⟨h2, himp rr h3⟩
    have hrr_joined : rr ∈ List.insertionSort
        (leLex (fun r : TrackAlbumRow => r.track.isrc.getD "")
          (fun r => OrderDual.toDual r.track.popularity))
        ((joinTracksAlbums c.store).filter pIn) :=
      mem_insertionSort _ |>.mpr hrr_join
    refine assembleTrack_eq_scan c hf _ _ _ rr ?har ?htr (huniq rr.track.id)
      ?hAA ?hTA
    case har =>
      apply contains_iff_mem.mpr
      exact List.mem_map_of_mem (fun r : TrackAlbumRow => r.album.rowid)
        hrr_joined
    case htr =>
      apply contains_iff_mem.mpr
      exact List.mem_map_of_mem (fun r : TrackAlbumRow => r.track.id)
        hrr_joined
    case hAA =>
      intro g hg
      have har : ((List.insertionSort
          (leLex (fun r : TrackAlbumRow => r.track.isrc.getD "")
            (fun r => OrderDual.toDual r.track.popularity))
          ((joinTracksAlbums c.store).filter pIn)).map
            (fun r : TrackAlbumRow => r.album.rowid)).contains
          rr.album.rowid = true := by
        apply contains_iff_mem.mpr
        exact List.mem_map_of_mem _ hrr_joined
      have hg2 : g ∈ albumArtistsRankedB c.store
          ((List.insertionSort
            (leLex (fun r : TrackAlbumRow => r.track.isrc.getD "")
              (fun r => OrderDual.toDual r.track.popularity))
            ((joinTracksAlbums c.store).filter pIn)).map
              (fun r : TrackAlbumRow => r.album.rowid)) := by
        rw [← albumArtistsRanked_restrict c.store _ rr.album.rowid har] at hg
        exact List.mem_of_mem_filter hg
      have haane : ((List.insertionSort
          (leLex (fun r : TrackAlbumRow => r.track.isrc.getD "")
            (fun r => OrderDual.toDual r.track.popularity))
          ((joinTracksAlbums c.store).filter pIn)).map
            (fun r : TrackAlbumRow => r.album.rowid)).isEmpty = false := by
        cases hc : (List.insertionSort
            (leLex (fun r : TrackAlbumRow => r.track.isrc.getD "")
              (fun r => OrderDual.toDual r.track.popularity))
            ((joinTracksAlbums c.store).filter pIn)).map
              (fun r : TrackAlbumRow => r.album.rowid) with
        | nil =>
          rw [hc] at har
          simp at har
        | cons x xs => rfl
      have hbAA : c.faults.batchAlbumArtistsQ = false := by rw [hf]; rfl
      have haa2 : (exceptD (batchGetAlbumArtists c
          ((List.insertionSort
            (leLex (fun r : TrackAlbumRow => r.track.isrc.getD "")
              (fun r => OrderDual.toDual r.track.popularity))
            ((joinTracksAlbums c.store).filter pIn)).map
              (fun r : TrackAlbumRow => r.album.rowid))) ([], [])).2 =
          (albumArtistsRankedB c.store
            ((List.insertionSort
              (leLex (fun r : TrackAlbumRow => r.track.isrc.getD "")
                (fun r => OrderDual.toDual r.track.popularity))
              ((joinTracksAlbums c.store).filter pIn)).map
                (fun r : TrackAlbumRow => r.album.rowid))).map
            (fun g => g.1.1.artist.rowid) := by
        simp [batchGetAlbumArtists, haane, hbAA, exceptD]
      apply contains_iff_mem.mpr
      rw [haa2]
      exact List.mem_append_left _ (List.mem_map_of_mem _ hg2)
    case hTA =>
      intro row hrow
      have htne2 : ((List.insertionSort
          (leLex (fun r : TrackAlbumRow => r.track.isrc.getD "")
            (fun r => OrderDual.toDual r.track.popularity))
          ((joinTracksAlbums c.store).filter pIn)).map
            (fun r : TrackAlbumRow => r.track.id)).isEmpty = false := by
        cases hc : (List.insertionSort
            (leLex (fun r : TrackAlbumRow => r.track.isrc.getD "")
              (fun r => OrderDual.toDual r.track.popularity))
            ((joinTracksAlbums c.store).filter pIn)).map
              (fun r : TrackAlbumRow => r.track.id) with
        | nil =>
          have : rr.track.id ∈ (List.insertionSort
              (leLex (fun r : TrackAlbumRow => r.track.isrc.getD "")
                (fun r => OrderDual.toDual r.track.popularity))
              ((joinTracksAlbums c.store).filter pIn)).map
                (fun r : TrackAlbumRow => r.track.id) :=
            List.mem_map_of_mem _ hrr_joined
          rw [hc] at this
          cases this
        | cons x xs => rfl
      have hbTA : c.faults.batchTrackArtistsQ = false := by rw [hf]; rfl
      have hta2 : (exceptD (batchGetTrackArtists c
          ((List.insertionSort
            (leLex (fun r : TrackAlbumRow => r.track.isrc.getD "")
              (fun r => OrderDual.toDual r.track.popularity))
            ((joinTracksAlbums c.store).filter pIn)).map
              (fun r : TrackAlbumRow => r.track.id))) ([], [])).2 =
          (trackArtistJoin c.store (fun tid =>
            ((List.insertionSort
              (leLex (fun r : TrackAlbumRow => r.track.isrc.getD "")
                (fun r => OrderDual.toDual r.track.popularity))
              ((joinTracksAlbums c.store).filter pIn)).map
                (fun r : TrackAlbumRow => r.track.id)).contains tid)).map
            (fun rr => rr.artist.rowid) := by
        simp [batchGetTrackArtists, htne2, hbTA, exceptD]
      have htid : ((List.insertionSort
          (leLex (fun r : TrackAlbumRow => r.track.isrc.getD "")
            (fun r => OrderDual.toDual r.track.popularity))
          ((joinTracksAlbums c.store).filter pIn)).map
            (fun r : TrackAlbumRow => r.track.id)).contains rr.track.id = true := by
        apply contains_iff_mem.mpr
        exact List.mem_map_of_mem _ hrr_joined
      have hrow2 : row ∈ trackArtistJoin c.store (fun tid =>
          ((List.insertionSort
            (leLex (fun r : TrackAlbumRow => r.track.isrc.getD "")
              (fun r => OrderDual.toDual r.track.popularity))
            ((joinTracksAlbums c.store).filter pIn)).map
              (fun r : TrackAlbumRow => r.track.id)).contains tid) := by
        rw [← trackArtistJoin_batch_restrict c.store _ rr.track.id htid] at hrow
        exact List.mem_of_mem_filter hrow
      apply contains_iff_mem.mpr
      rw [hta2]
      exact List.mem_append_right _ (List.mem_map_of_mem _ hrow2)

theorem enrich_popularity (c : Conn) (t : Track) :
    (enrichTrackFromFiles c t).popularity = t.popularity := by
  unfold enrichTrackFromFiles applyTrackFileRow
  by_cases hb : c.faults.trackFilesQ
  · simp [hb]
  · simp only [hb, Bool.false_eq_true, if_false]
    cases c.store.trackFiles.find? (fun r => decide (r.trackId = t.id)) <;>
      rfl

theorem scanTrack_popularity (c : Conn) (r : TrackAlbumRow) :
    (scanTrackWithAlbum c r).popularity = r.track.popularity := by
  unfold scanTrackWithAlbum
  rw [enrich_popularity]
  rfl

theorem assembleTrack_popularity (ai : List (Int × List Image))
    (aa : List (Int × List ArtistRow)) (ta : List (String × List ArtistRow))
    (ag : List (Int × List String)) (am : List (Int × List Image))
    (tf : List (String × TrackFileData)) (r : TrackAlbumRow) :
    (assembleTrack ai aa ta ag am tf r).popularity = r.track.popularity := by
  unfold assembleTrack
  cases assocGet tf r.track.id <;> rfl

theorem foldl_min_le_init [LinearOrder β] :
    ∀ (l : List β) (a : β), l.foldl min a ≤ a := by
  intro l
  induction l with
  | nil => intro a; exact le_refl a
  | cons x xs ih =>
    intro a
    exact le_trans (ih (min a x)) (min_le_left a x)

theorem foldl_min_le_mem [LinearOrder β] :
    ∀ (l : List β) (a x : β), x ∈ l → l.foldl min a ≤ x := by
  intro l
  induction l with
  | nil => intro a x hx; cases hx
  | cons y ys ih =>
    intro a x hx
    rcases List.mem_cons.mp hx with rfl | hx
    · exact le_trans (foldl_min_le_init ys (min a x)) (min_le_right a x)
    · exact ih (min a y) x hx

theorem foldl_min_choice [LinearOrder β] :
    ∀ (l : List β) (a : β), l.foldl min a = a ∨ l.foldl min a ∈ l := by
  intro l
  induction l with
  | nil => intro a; exact Or.inl rfl
  | cons y ys ih =>
    intro a
    rcases ih (min a y) with h | h
    · rcases le_total a y with hay | hya
      · rw [List.foldl_cons, h, min_eq_left hay]
        exact Or.inl rfl
      · rw [List.foldl_cons, h, min_eq_right hya]
        exact Or.inr (List.mem_cons_self _ _)
    · exact Or.inr (List.mem_cons_of_mem _ h)

theorem minIdxOf_eq_foldl (g : AAJoinRow × List AAJoinRow) :
    minIdxOf g = (g.2.map (fun row => row.idx)).foldl min g.1.idx := by
  unfold minIdxOf
  generalize g.1.idx = a
  induction g.2 generalizing a with
  | nil => rfl
  | cons y ys ih => simp [List.foldl_cons, ih]

/-! ### The claims -/

/-- C1: for every identifier set, batch resolution by external id
(BatchLookupISRCs) and repeated single-entity resolution (LookupISRC applied
to each id) produce identical hydrated graphs: reading the batch result at
any requested ISRC gives exactly the single lookup's track list, with the
same fields, Image ordering and Performer ordering — under healthy queries
and the data model's 0-or-1 Annotation row per Recording. -/
theorem C1_batch_single_equivalence (c : Conn) (isrcs : List String)
    (isrc : String) (hf : c.faults = noFaults)
    (huniq : ∀ id : String, (c.store.trackFiles.filter
      (fun row => decide (row.trackId = id))).length ≤ 1)
    (hmem : isrc ∈ isrcs) :
    GoResult.map (fun m => (assocGet m isrc).getD [])
      (batchLookupISRCs c isrcs) = GoResult.ofExcept (lookupISRC c isrc) :=
  lookupISRC_eq_batch_key c hf huniq isrcs isrc hmem

theorem C1_batch_single_equivalence_witness :
    GoResult.map (fun m => (assocGet m "ISRC1").getD [])
      (batchLookupISRCs sampleConn ["ISRC1", "ISRC2"]) =
      GoResult.ofExcept (lookupISRC sampleConn "ISRC1") :=
  C1_batch_single_equivalence sampleConn ["ISRC1", "ISRC2"] "ISRC1" rfl
    (by
      intro id
      by_cases h1 : ("tr1" : String) = id
      · by_cases h2 : ("tr2" : String) = id
        · exact absurd (h1.trans h2.symm) (by decide)
        · simp [sampleConn, sampleStore, List.filter_cons, h1, h2]
      · by_cases h2 : ("tr2" : String) = id
        · simp [sampleConn, sampleStore, List.filter_cons, h1, h2]
        · simp [sampleConn, sampleStore, List.filter_cons, h1, h2])
    (by decide)

/-- C2 counterexample: the multi-category batch-lookup call with every
category's identifier list empty does NOT return empty maps — the handler
rejects it with a validation error. -/
theorem C2_counterexample :
    batchLookup { store := sampleStore, faults := allFaults } {} =
      .err "at least one lookup type required" := rfl

/-- C2 (amended): an all-empty multi-category request is rejected with the
"at least one lookup type required" validation error before any query is
issued (so even a handle whose every query site fails behaves identically),
and at the store layer each batch operation invoked with an empty identifier
list returns an empty result without issuing any query. -/
theorem C2_empty_batch (s : Store) (f : Faults) :
    batchLookup { store := s, faults := f } {} =
      .err "at least one lookup type required" ∧
    batchLookupISRCs { store := s, faults := f } [] = .ok [] ∧
    batchLookupTracks { store := s, faults := f } [] = .ok [] ∧
    batchLookupArtists { store := s, faults := f } [] = .ok [] ∧
    batchLookupAlbums { store := s, faults := f } [] = .ok [] ∧
    batchGetAlbumImages { store := s, faults := f } [] = .ok [] ∧
    batchGetAlbumArtists { store := s, faults := f } [] = .ok ([], []) ∧
    batchGetTrackArtists { store := s, faults := f } [] = .ok ([], []) ∧
    batchGetArtistGenres { store := s, faults := f } [] = .ok [] ∧
    batchGetArtistImages { store := s, faults := f } [] = .ok [] ∧
    batchEnrichTrackFiles { store := s, faults := f } [] = .ok [] :=
  ⟨rfl, rfl, rfl, rfl, rfl, rfl, rfl, rfl, rfl, rfl, rfl⟩

/-- C3 counterexample: when the tracks category's primary query fails, the
multi-category response's error map does NOT contain an entry for that
category — BatchLookupTracks swallows the per-id failure and reports
success with the id absent. -/
theorem C3_counterexample :
    lookupTrack { store := sampleStore, faults := { trackQ := true } }
        "bad-id" = .error "query track" ∧
    batchLookup { store := sampleStore, faults := { trackQ := true } }
        { tracks := ["bad-id"] } =
      .ok { tracks := some [], artists := none, albums := none,
            isrcs := none, errors := [] } :=
  ⟨rfl, rfl⟩

/-- Only one abort message exists in BatchLookupISRCs: the nil-map write. -/
theorem batchLookupISRCs_abort_msg (c : Conn) (isrcs : List String)
    (msg : String) (h : batchLookupISRCs c isrcs = .abort msg) :
    msg = "assignment to entry in nil map" := by
  unfold batchLookupISRCs at h
  dsimp only at h
  by_cases h1 : isrcs.isEmpty
  · rw [if_pos h1] at h
    exact GoResult.noConfusion h
  · rw [if_neg h1] at h
    by_cases h2 : c.faults.batchIsrcQ
    · rw [if_pos h2] at h
      exact GoResult.noConfusion h
    · rw [if_neg h2] at h
      by_cases h3 : (qBatchTracksByISRCs c.store isrcs).isEmpty
      · rw [if_pos h3] at h
        exact GoResult.noConfusion h
      · rw [if_neg h3] at h
        by_cases h4 : nilMapWrite c
            ((qBatchTracksByISRCs c.store isrcs).map
              (fun r => r.album.rowid))
            ((qBatchTracksByISRCs c.store isrcs).map (fun r => r.track.id))
        · rw [if_pos h4] at h
          injection h with h'
          exact h'.symm
        · rw [if_neg h4] at h
          exact GoResult.noConfusion h

/-- C3 (amended): in a multi-category batch call with a valid total, each
category's field is exactly its own batch operation's result, so categories
resolve independently; the tracks, artists and albums operations always
report success (per-id failures are logged and the ids omitted), hence
never contribute an error entry — only the external-id (isrcs) category
can; but the isolation has a hole: when the isrcs category panics (the
nil-map write after a failed album-artists fetch), the panic unwinds past
the handler and the whole request aborts, losing even the categories that
had already completed. -/
theorem C3_category_isolation (c : Conn) (req : BatchLookupRequest)
    (h0 : req.tracks.length + req.artists.length + req.albums.length +
      req.isrcs.length ≠ 0)
    (h400 : req.tracks.length + req.artists.length + req.albums.length +
      req.isrcs.length ≤ 400) :
    ((batchLookupISRCs c req.isrcs).isAbort = true →
      batchLookup c req = .abort "assignment to entry in nil map") ∧
    ((batchLookupISRCs c req.isrcs).isAbort = false →
      batchLookup c req = .ok {
        tracks := if req.tracks.isEmpty then none
          else some (exceptD (batchLookupTracks c req.tracks) []),
        artists := if req.artists.isEmpty then none
          else some (exceptD (batchLookupArtists c req.artists) []),
        albums := if req.albums.isEmpty then none
          else some (exceptD (batchLookupAlbums c req.albums) []),
        isrcs := if req.isrcs.isEmpty then none
          else (batchLookupISRCs c req.isrcs).toOption,
        errors := if req.isrcs.isEmpty ||
            (batchLookupISRCs c req.isrcs).isOk
          then [] else [("isrcs", "failed to lookup some isrcs")] }) := by
  constructor
  · intro hab
    unfold batchLookup
    rw [if_neg h0, if_neg (by omega)]
    by_cases hi : req.isrcs.isEmpty
    · have hok : batchLookupISRCs c req.isrcs = .ok [] := by
        unfold batchLookupISRCs
        rw [if_pos hi]
      rw [hok] at hab
      exact absurd hab (by simp [GoResult.isAbort])
    · cases hx : batchLookupISRCs c req.isrcs with
      | ok m =>
        rw [hx] at hab
        exact absurd hab (by simp [GoResult.isAbort])
      | err e =>
        rw [hx] at hab
        exact absurd hab (by simp [GoResult.isAbort])
      | abort msg =>
        have hmsg := batchLookupISRCs_abort_msg c req.isrcs msg hx
        subst hmsg
        simp [hi, hx]
  · intro hok
    unfold batchLookup
    rw [if_neg h0, if_neg (by omega)]
    cases hx : batchLookupISRCs c req.isrcs with
    | abort msg =>
      rw [hx] at hok
      exact absurd hok (by simp [GoResult.isAbort])
    | ok m =>
      by_cases ht : req.tracks.isEmpty <;>
        by_cases ha : req.artists.isEmpty <;>
        by_cases hb : req.albums.isEmpty <;>
        by_cases hi : req.isrcs.isEmpty <;>
        simp [ht, ha, hb, hi, hx, batchLookupTracks, batchLookupArtists,
          batchLookupAlbums, exceptD, GoResult.isOk, GoResult.toOption]
    | err e =>
      by_cases ht : req.tracks.isEmpty <;>
        by_cases ha : req.artists.isEmpty <;>
        by_cases hb : req.albums.isEmpty <;>
        by_cases hi : req.isrcs.isEmpty <;>
        simp [ht, ha, hb, hi, hx, batchLookupTracks, batchLookupArtists,
          batchLookupAlbums, exceptD, GoResult.isOk, GoResult.toOption]

theorem C3_category_isolation_witness :
    batchLookup sampleConn { tracks := ["tr1"], isrcs := ["NOPE"] } = .ok {
      tracks := if (["tr1"] : List String).isEmpty then none
        else some (exceptD (batchLookupTracks sampleConn ["tr1"]) []),
      artists := if ([] : List String).isEmpty then none
        else some (exceptD (batchLookupArtists sampleConn []) []),
      albums := if ([] : List String).isEmpty then none
        else some (exceptD (batchLookupAlbums sampleConn []) []),
      isrcs := if (["NOPE"] : List String).isEmpty then none
        else (batchLookupISRCs sampleConn ["NOPE"]).toOption,
      errors := if (["NOPE"] : List String).isEmpty ||
          (batchLookupISRCs sampleConn ["NOPE"]).isOk
        then [] else [("isrcs", "failed to lookup some isrcs")] } :=
  (C3_category_isolation sampleConn { tracks := ["tr1"], isrcs := ["NOPE"] }
    (by decide) (by decide)).2 rfl

/-- C8: an identifier that exists in none of the primary tables yields an
explicit not-found `none` from each single-entity lookup (track, artist,
album), never an error. -/
theorem C8_absence_not_error (c : Conn) (id : String)
    (htq : c.faults.trackQ = false) (haq : c.faults.artistQ = false)
    (hbq : c.faults.albumQ = false)
    (h1 : ∀ t ∈ c.store.tracks, t.id ≠ id)
    (h2 : ∀ a ∈ c.store.artists, a.id ≠ id)
    (h3 : ∀ a ∈ c.store.albums, a.id ≠ id) :
    lookupTrack c id = .ok none ∧ lookupArtist c id = .ok none ∧
    lookupAlbum c id = .ok none := by
  refine ⟨?_, ?_, ?_⟩
  · unfold lookupTrack
    rw [htq]
    simp only [Bool.false_eq_true, if_false]
    have hn : (joinTracksAlbums c.store).find?
        (fun r => decide (r.track.id = id)) = none := by
      rw [List.find?_eq_none]
      intro r hr
      simp only [decide_eq_true_eq]
      exact h1 r.track (mem_joinTracksAlbums hr).1
    rw [hn]
  · unfold lookupArtist
    rw [haq]
    simp only [Bool.false_eq_true, if_false]
    have hn : c.store.artists.find? (fun a => decide (a.id = id)) = none := by
      rw [List.find?_eq_none]
      intro a ha
      simp only [decide_eq_true_eq]
      exact h2 a ha
    rw [hn]
  · unfold lookupAlbum
    rw [hbq]
    simp only [Bool.false_eq_true, if_false]
    have hn : c.store.albums.find? (fun a => decide (a.id = id)) = none := by
      rw [List.find?_eq_none]
      intro a ha
      simp only [decide_eq_true_eq]
      exact h3 a ha
    rw [hn]

theorem C8_absence_not_error_witness :
    lookupTrack sampleConn "missing" = .ok none ∧
    lookupArtist sampleConn "missing" = .ok none ∧
    lookupAlbum sampleConn "missing" = .ok none :=
  C8_absence_not_error sampleConn "missing" rfl rfl rfl (by decide)
    (by decide) (by decide)

/-- C10: a search limit outside 1..50 falls back to the effective limit 20
(for both artist and track search), and no search result ever exceeds 50
entries. -/
theorem C10_search_limit (c : Conn) (q : String) (limOut lim : Int)
    (h : ¬ (1 ≤ limOut ∧ limOut ≤ 50)) :
    searchArtist c q limOut = searchArtist c q 20 ∧
    searchTrack c q limOut = searchTrack c q 20 ∧
    (exceptD (searchArtist c q lim) []).length ≤ 50 ∧
    (exceptD (searchTrack c q lim) []).length ≤ 50 := by
  have hcl : (limOut ≤ 0 ∨ limOut > 50) := by omega
  have h20 : ¬ ((20 : Int) ≤ 0 ∨ (20 : Int) > 50) := by omega
  have hbound : (if lim ≤ 0 ∨ lim > 50 then (20 : Int) else lim).toNat ≤ 50 := by
    by_cases hc : (lim ≤ 0 ∨ lim > 50)
    · rw [if_pos hc]
      decide
    · rw [if_neg hc]
      omega
  refine ⟨?_, ?_, ?_, ?_⟩
  · unfold searchArtist
    rw [if_pos hcl, if_neg h20]
  · unfold searchTrack
    rw [if_pos hcl, if_neg h20]
  · unfold searchArtist
    by_cases hf : c.faults.searchArtistQ
    · simp [hf, exceptD]
    · simp only [hf, Bool.false_eq_true, if_false, exceptD]
      rw [List.length_map]
      exact le_trans (List.length_take_le _ _) hbound
  · unfold searchTrack
    by_cases hf : c.faults.searchTrackQ
    · simp [hf, exceptD]
    · simp only [hf, Bool.false_eq_true, if_false, exceptD]
      rw [List.length_map]
      exact le_trans (List.length_take_le _ _) hbound

theorem C10_search_limit_witness :
    searchArtist sampleConn "li" 0 = searchArtist sampleConn "li" 20 ∧
    searchTrack sampleConn "li" 0 = searchTrack sampleConn "li" 20 ∧
    (exceptD (searchArtist sampleConn "li" 7) []).length ≤ 50 ∧
    (exceptD (searchTrack sampleConn "li" 7) []).length ≤ 50 :=
  C10_search_limit sampleConn "li" 0 7 (by decide)

theorem joinTracksAlbums_trackFiles_irrel (s : Store)
    (tf : List TrackFileRow) :
    joinTracksAlbums { s with trackFiles := tf } = joinTracksAlbums s := rfl

theorem qBatch_trackFiles_irrel (s : Store) (tf : List TrackFileRow)
    (isrcs : List String) :
    qBatchTracksByISRCs { s with trackFiles := tf } isrcs =
      qBatchTracksByISRCs s isrcs := rfl

/-- With the secondary store unreachable, a scanned track equals the scan
against a healthy connection whose track_files table is empty. -/
theorem scanTrack_degraded (s : Store) (f : Faults) (r : TrackAlbumRow)
    (h1 : f.trackFilesQ = true) :
    scanTrackWithAlbum { store := s, faults := f } r =
      scanTrackWithAlbum (degradedConn s f) r := by
  unfold degradedConn
  unfold scanTrackWithAlbum enrichTrackFromFiles
  dsimp only
  rw [h1]
  rfl

/-- C6: with the secondary (annotation) store absent or unreachable, the
system does not fail: opening succeeds, every annotation lookup silently
leaves the track unchanged (empty/unknown annotation fields), and both
single and batched recording resolution behave exactly as with a healthy,
empty annotation store — in particular they still return the base records
without error. -/
theorem C6_degraded_secondary (s : Store) (f : Faults) (id : String)
    (isrcs : List String) (t : Track)
    (h1 : f.trackFilesQ = true) (h2 : f.batchTrackFilesQ = true) :
    openDB s true = .ok
      { store := s,
        faults :=
          { noFaults with trackFilesQ := true, batchTrackFilesQ := true } } ∧
    enrichTrackFromFiles { store := s, faults := f } t = t ∧
    lookupTrack { store := s, faults := f } id =
      lookupTrack (degradedConn s f) id ∧
    batchLookupISRCs { store := s, faults := f } isrcs =
      batchLookupISRCs (degradedConn s f) isrcs := by
  unfold degradedConn
  refine ⟨rfl, ?_, ?_, ?_⟩
  · unfold enrichTrackFromFiles
    dsimp only
    rw [h1]
    rfl
  · unfold lookupTrack
    dsimp only
    rw [joinTracksAlbums_trackFiles_irrel s []]
    cases hfind : (joinTracksAlbums s).find?
        (fun r => decide (r.track.id = id)) with
    | none => rfl
    | some r =>
      dsimp only
      rw [scanTrack_degraded s f r h1]
      rfl
  · have hL : ∀ X : List String,
        exceptD (batchEnrichTrackFiles { store := s, faults := f } X) [] =
          [] := by
      intro X
      unfold batchEnrichTrackFiles
      by_cases hX : X.isEmpty
      · simp [hX, exceptD]
      · simp [hX, h2, exceptD]
    have hR : ∀ X : List String,
        exceptD (batchEnrichTrackFiles
          { store := { s with trackFiles := [] },
            faults :=
              { f with trackFilesQ := false, batchTrackFilesQ := false } }
          X) [] = [] := by
      intro X
      unfold batchEnrichTrackFiles
      by_cases hX : X.isEmpty
      · simp [hX, exceptD]
      · simp [hX, exceptD, collectLast]
    unfold batchLookupISRCs
    dsimp only
    rw [qBatch_trackFiles_irrel s [] isrcs]
    by_cases he : isrcs.isEmpty
    · simp [he]
    · simp only [he, Bool.false_eq_true, if_false]
      by_cases hq : f.batchIsrcQ = true
      · rw [if_pos hq, if_pos hq]
      · rw [if_neg hq, if_neg hq]
        cases hj : (qBatchTracksByISRCs s isrcs).isEmpty
        · simp only [Bool.false_eq_true, if_false]
          rw [hL, hR]
          rfl
        · rfl

theorem C6_degraded_secondary_witness :
    openDB sampleStore true = .ok
      { store := sampleStore,
        faults :=
          { noFaults with trackFilesQ := true, batchTrackFilesQ := true } } ∧
    enrichTrackFromFiles
      { store := sampleStore,
        faults := { trackFilesQ := true, batchTrackFilesQ := true } }
      sampleTrack = sampleTrack ∧
    lookupTrack
      { store := sampleStore,
        faults := { trackFilesQ := true, batchTrackFilesQ := true } }
      "tr1" =
      lookupTrack (degradedConn sampleStore
        { trackFilesQ := true, batchTrackFilesQ := true }) "tr1" ∧
    batchLookupISRCs
      { store := sampleStore,
        faults := { trackFilesQ := true, batchTrackFilesQ := true } }
      ["ISRC1"] =
      batchLookupISRCs (degradedConn sampleStore
        { trackFilesQ := true, batchTrackFilesQ := true }) ["ISRC1"] :=
  C6_degraded_secondary sampleStore
    { trackFilesQ := true, batchTrackFilesQ := true } "tr1" ["ISRC1"]
    sampleTrack rfl rfl

theorem qBatch_albumImages_irrel (s : Store) (ai : List AlbumImageRow)
    (isrcs : List String) :
    qBatchTracksByISRCs { s with albumImages := ai } isrcs =
      qBatchTracksByISRCs s isrcs := rfl

theorem qBatch_artistAlbums_irrel (s : Store) (aa : List ArtistAlbumRow)
    (isrcs : List String) :
    qBatchTracksByISRCs { s with artistAlbums := aa } isrcs =
      qBatchTracksByISRCs s isrcs := rfl

theorem qBatch_trackArtists_irrel (s : Store) (ta : List TrackArtistRow)
    (isrcs : List String) :
    qBatchTracksByISRCs { s with trackArtists := ta } isrcs =
      qBatchTracksByISRCs s isrcs := rfl

theorem qBatch_artistGenres_irrel (s : Store) (ag : List ArtistGenreRow)
    (isrcs : List String) :
    qBatchTracksByISRCs { s with artistGenres := ag } isrcs =
      qBatchTracksByISRCs s isrcs := rfl

theorem qBatch_artistImages_irrel (s : Store) (ai : List ArtistImageRow)
    (isrcs : List String) :
    qBatchTracksByISRCs { s with artistImages := ai } isrcs =
      qBatchTracksByISRCs s isrcs := rfl

theorem qBatch_artistTables_irrel (s : Store) (aa : List ArtistAlbumRow)
    (ta : List TrackArtistRow) (isrcs : List String) :
    qBatchTracksByISRCs { s with artistAlbums := aa, trackArtists := ta }
      isrcs = qBatchTracksByISRCs s isrcs := rfl

/-- C5 (amended): in `BatchLookupISRCs`, the step-1 joined query is fatal
(its failure errors the whole call) and, with it and the album-artists
fetch healthy, the call returns `.ok` whatever other sub-fetches fail; a
failing album-images, track-artists, artist-genres, artist-images or
annotation sub-fetch behaves exactly as a healthy sub-fetch over an
emptied sub-relation table; and a failing album-artists sub-fetch degrades
that way only together with a failing (or empty) track-artists fetch —
otherwise the nil-map merge panics (see the counterexample). -/
theorem C5_subfetch_degradation (s : Store) (f : Faults)
    (isrcs : List String) (hne : isrcs.isEmpty = false) :
    GoResult.isOk (batchLookupISRCs
      { store := s, faults := { f with batchIsrcQ := false, batchAlbumArtistsQ := false } } isrcs) = true ∧
    batchLookupISRCs
      { store := s, faults := { f with batchIsrcQ := true } } isrcs =
      .err "batch query isrcs" ∧
    batchLookupISRCs
      { store := s, faults := { f with batchAlbumImagesQ := true } }
      isrcs =
      batchLookupISRCs
        { store := { s with albumImages := [] },
          faults := { f with batchAlbumImagesQ := false } } isrcs ∧
    batchLookupISRCs
      { store := s, faults := { f with batchAlbumArtistsQ := true, batchTrackArtistsQ := true } } isrcs =
      batchLookupISRCs
        { store := { s with artistAlbums := [], trackArtists := [] },
          faults := { f with batchAlbumArtistsQ := false, batchTrackArtistsQ := false } } isrcs ∧
    batchLookupISRCs
      { store := s, faults := { f with batchTrackArtistsQ := true } }
      isrcs =
      batchLookupISRCs
        { store := { s with trackArtists := [] },
          faults := { f with batchTrackArtistsQ := false } } isrcs ∧
    batchLookupISRCs
      { store := s, faults := { f with batchArtistGenresQ := true } }
      isrcs =
      batchLookupISRCs
        { store := { s with artistGenres := [] },
          faults := { f with batchArtistGenresQ := false } } isrcs ∧
    batchLookupISRCs
      { store := s, faults := { f with batchArtistImagesQ := true } }
      isrcs =
      batchLookupISRCs
        { store := { s with artistImages := [] },
          faults := { f with batchArtistImagesQ := false } } isrcs ∧
    batchLookupISRCs
      { store := s, faults := { f with batchTrackFilesQ := true } }
      isrcs =
      batchLookupISRCs
        { store := { s with trackFiles := [] },
          faults := { f with batchTrackFilesQ := false } } isrcs := by
  refine ⟨?_, ?_, ?_, ?_, ?_, ?_, ?_, ?_⟩
  · unfold batchLookupISRCs
    dsimp only
    simp only [hne, Bool.false_eq_true, if_false]
    rw [nilMapWrite_healthy
      { store := s, faults := { f with batchIsrcQ := false, batchAlbumArtistsQ := false } } rfl]
    cases hj : (qBatchTracksByISRCs s isrcs).isEmpty <;>
      simp [hj, GoResult.isOk]
  · unfold batchLookupISRCs
    dsimp only
    simp only [hne, Bool.false_eq_true, if_false, if_true]
  · have hL : ∀ L : List Int,
        exceptD (batchGetAlbumImages
          { store := s, faults := { f with batchAlbumImagesQ := true } }
          L) [] = [] := by
      intro L
      unfold batchGetAlbumImages
      by_cases hX : L.isEmpty
      · simp [hX, exceptD]
      · simp [hX, exceptD]
    have hR : ∀ L : List Int,
        exceptD (batchGetAlbumImages
          { store := { s with albumImages := [] },
            faults := { f with batchAlbumImagesQ := false } } L) [] =
          [] := by
      intro L
      unfold batchGetAlbumImages
      by_cases hX : L.isEmpty
      · simp [hX, exceptD]
      · simp [hX, exceptD, batchAlbumImageRows, dedupF_nil, collectBy]
    unfold batchLookupISRCs
    dsimp only
    rw [qBatch_albumImages_irrel s [] isrcs]
    by_cases he : isrcs.isEmpty
    · simp [he]
    · simp only [he, Bool.false_eq_true, if_false]
      by_cases hq : f.batchIsrcQ = true
      · rw [if_pos hq, if_pos hq]
      · rw [if_neg hq, if_neg hq]
        cases hj : (qBatchTracksByISRCs s isrcs).isEmpty
        · simp only [Bool.false_eq_true, if_false]
          rw [hL, hR]
          rfl
        · rfl
  · have hLta : ∀ T : List String,
        exceptD (batchGetTrackArtists
          { store := s, faults := { f with batchAlbumArtistsQ := true, batchTrackArtistsQ := true } } T) ([], []) = ([], []) := by
      intro T
      unfold batchGetTrackArtists
      by_cases hX : T.isEmpty
      · simp [hX, exceptD]
      · simp [hX, exceptD]
    have hRta : ∀ T : List String,
        exceptD (batchGetTrackArtists
          { store := { s with artistAlbums := [], trackArtists := [] },
            faults := { f with batchAlbumArtistsQ := false, batchTrackArtistsQ := false } } T) ([], []) = ([], []) := by
      intro T
      unfold batchGetTrackArtists
      by_cases hX : T.isEmpty
      · simp [hX, exceptD]
      · simp [hX, exceptD, trackArtistJoin, collectBy]
    have hLaa : ∀ L : List Int,
        exceptD (batchGetAlbumArtists
          { store := s, faults := { f with batchAlbumArtistsQ := true, batchTrackArtistsQ := true } } L) ([], []) = ([], []) := by
      intro L
      unfold batchGetAlbumArtists
      by_cases hX : L.isEmpty
      · simp [hX, exceptD]
      · simp [hX, exceptD]
    have hRaa : ∀ L : List Int,
        exceptD (batchGetAlbumArtists
          { store := { s with artistAlbums := [], trackArtists := [] },
            faults := { f with batchAlbumArtistsQ := false, batchTrackArtistsQ := false } } L) ([], []) = ([], []) := by
      intro L
      unfold batchGetAlbumArtists
      by_cases hX : L.isEmpty
      · simp [hX, exceptD]
      · simp [hX, exceptD, albumArtistsRankedB, albumArtistJoin,
          groupAgg_nil, collectBy]
    have hLnw : ∀ (A : List Int) (T : List String),
        nilMapWrite
          { store := s,
            faults := { f with batchAlbumArtistsQ := true, batchTrackArtistsQ := true } }
          A T = false := by
      intro A T
      unfold nilMapWrite
      rw [hLta]
      simp
    have hRnw : ∀ (A : List Int) (T : List String),
        nilMapWrite
          { store := { s with artistAlbums := [], trackArtists := [] },
            faults := { f with batchAlbumArtistsQ := false, batchTrackArtistsQ := false } }
          A T = false :=
      fun A T => nilMapWrite_healthy _ rfl A T
    unfold batchLookupISRCs
    dsimp only
    rw [qBatch_artistTables_irrel s [] [] isrcs]
    by_cases he : isrcs.isEmpty
    · simp [he]
    · simp only [he, Bool.false_eq_true, if_false]
      by_cases hq : f.batchIsrcQ = true
      · rw [if_pos hq, if_pos hq]
      · rw [if_neg hq, if_neg hq]
        cases hj : (qBatchTracksByISRCs s isrcs).isEmpty
        · simp only [Bool.false_eq_true, if_false]
          rw [hLnw, hRnw]
          simp only [Bool.false_eq_true, if_false]
          rw [hLta, hRta, hLaa, hRaa]
          rfl
        · rfl
  · have hL : ∀ L : List String,
        exceptD (batchGetTrackArtists
          { store := s, faults := { f with batchTrackArtistsQ := true } }
          L) ([], []) = ([], []) := by
      intro L
      unfold batchGetTrackArtists
      by_cases hX : L.isEmpty
      · simp [hX, exceptD]
      · simp [hX, exceptD]
    have hR : ∀ L : List String,
        exceptD (batchGetTrackArtists
          { store := { s with trackArtists := [] },
            faults := { f with batchTrackArtistsQ := false } } L)
          ([], []) = ([], []) := by
      intro L
      unfold batchGetTrackArtists
      by_cases hX : L.isEmpty
      · simp [hX, exceptD]
      · simp [hX, exceptD, trackArtistJoin, collectBy]
    have hLnw : ∀ (A : List Int) (T : List String),
        nilMapWrite
          { store := s, faults := { f with batchTrackArtistsQ := true } }
          A T = false := by
      intro A T
      unfold nilMapWrite
      rw [hL]
      simp
    have hRnw : ∀ (A : List Int) (T : List String),
        nilMapWrite
          { store := { s with trackArtists := [] },
            faults := { f with batchTrackArtistsQ := false } }
          A T = false := by
      intro A T
      unfold nilMapWrite
      rw [hR]
      simp
    unfold batchLookupISRCs
    dsimp only
    rw [qBatch_trackArtists_irrel s [] isrcs]
    by_cases he : isrcs.isEmpty
    · simp [he]
    · simp only [he, Bool.false_eq_true, if_false]
      by_cases hq : f.batchIsrcQ = true
      · rw [if_pos hq, if_pos hq]
      · rw [if_neg hq, if_neg hq]
        cases hj : (qBatchTracksByISRCs s isrcs).isEmpty
        · simp only [Bool.false_eq_true, if_false]
          rw [hLnw, hRnw]
          simp only [Bool.false_eq_true, if_false]
          rw [hL, hR]
          rfl
        · rfl
  · have hL : ∀ L : List Int,
        exceptD (batchGetArtistGenres
          { store := s, faults := { f with batchArtistGenresQ := true } }
          L) [] = [] := by
      intro L
      unfold batchGetArtistGenres
      by_cases hX : L.isEmpty
      · simp [hX, exceptD]
      · simp [hX, exceptD]
    have hR : ∀ L : List Int,
        exceptD (batchGetArtistGenres
          { store := { s with artistGenres := [] },
            faults := { f with batchArtistGenresQ := false } } L) [] =
          [] := by
      intro L
      unfold batchGetArtistGenres
      by_cases hX : L.isEmpty
      · simp [hX, exceptD]
      · simp [hX, exceptD, collectBy]
    unfold batchLookupISRCs
    dsimp only
    rw [qBatch_artistGenres_irrel s [] isrcs]
    by_cases he : isrcs.isEmpty
    · simp [he]
    · simp only [he, Bool.false_eq_true, if_false]
      by_cases hq : f.batchIsrcQ = true
      · rw [if_pos hq, if_pos hq]
      · rw [if_neg hq, if_neg hq]
        cases hj : (qBatchTracksByISRCs s isrcs).isEmpty
        · simp only [Bool.false_eq_true, if_false]
          rw [hL, hR]
          rfl
        · rfl
  · have hL : ∀ L : List Int,
        exceptD (batchGetArtistImages
          { store := s, faults := { f with batchArtistImagesQ := true } }
          L) [] = [] := by
      intro L
      unfold batchGetArtistImages
      by_cases hX : L.isEmpty
      · simp [hX, exceptD]
      · simp [hX, exceptD]
    have hR : ∀ L : List Int,
        exceptD (batchGetArtistImages
          { store := { s with artistImages := [] },
            faults := { f with batchArtistImagesQ := false } } L) [] =
          [] := by
      intro L
      unfold batchGetArtistImages
      by_cases hX : L.isEmpty
      · simp [hX, exceptD]
      · simp [hX, exceptD, collectBy]
    unfold batchLookupISRCs
    dsimp only
    rw [qBatch_artistImages_irrel s [] isrcs]
    by_cases he : isrcs.isEmpty
    · simp [he]
    · simp only [he, Bool.false_eq_true, if_false]
      by_cases hq : f.batchIsrcQ = true
      · rw [if_pos hq, if_pos hq]
      · rw [if_neg hq, if_neg hq]
        cases hj : (qBatchTracksByISRCs s isrcs).isEmpty
        · simp only [Bool.false_eq_true, if_false]
          rw [hL, hR]
          rfl
        · rfl
  · have hL : ∀ L : List String,
        exceptD (batchEnrichTrackFiles
          { store := s, faults := { f with batchTrackFilesQ := true } }
          L) [] = [] := by
      intro L
      unfold batchEnrichTrackFiles
      by_cases hX : L.isEmpty
      · simp [hX, exceptD]
      · simp [hX, exceptD]
    have hR : ∀ L : List String,
        exceptD (batchEnrichTrackFiles
          { store := { s with trackFiles := [] },
            faults := { f with batchTrackFilesQ := false } } L) [] =
          [] := by
      intro L
      unfold batchEnrichTrackFiles
      by_cases hX : L.isEmpty
      · simp [hX, exceptD]
      · simp [hX, exceptD, collectLast]
    unfold batchLookupISRCs
    dsimp only
    rw [qBatch_trackFiles_irrel s [] isrcs]
    by_cases he : isrcs.isEmpty
    · simp [he]
    · simp only [he, Bool.false_eq_true, if_false]
      by_cases hq : f.batchIsrcQ = true
      · rw [if_pos hq, if_pos hq]
      · rw [if_neg hq, if_neg hq]
        cases hj : (qBatchTracksByISRCs s isrcs).isEmpty
        · simp only [Bool.false_eq_true, if_false]
          rw [hL, hR]
          rfl
        · rfl

theorem C5_subfetch_degradation_witness :
    GoResult.isOk (batchLookupISRCs
      { store := sampleStore,
        faults := { noFaults with batchIsrcQ := false, batchAlbumArtistsQ := false } }
      ["ISRC1"]) = true ∧
    batchLookupISRCs
      { store := sampleStore,
        faults := { noFaults with batchIsrcQ := true } } ["ISRC1"] =
      .err "batch query isrcs" ∧
    batchLookupISRCs
      { store := sampleStore,
        faults := { noFaults with batchAlbumImagesQ := true } }
      ["ISRC1"] =
      batchLookupISRCs
        { store := { sampleStore with albumImages := [] },
          faults := { noFaults with batchAlbumImagesQ := false } }
        ["ISRC1"] ∧
    batchLookupISRCs
      { store := sampleStore,
        faults := { noFaults with batchAlbumArtistsQ := true, batchTrackArtistsQ := true } }
      ["ISRC1"] =
      batchLookupISRCs
        { store := { sampleStore with artistAlbums := [], trackArtists := [] },
          faults := { noFaults with batchAlbumArtistsQ := false, batchTrackArtistsQ := false } }
        ["ISRC1"] ∧
    batchLookupISRCs
      { store := sampleStore,
        faults := { noFaults with batchTrackArtistsQ := true } }
      ["ISRC1"] =
      batchLookupISRCs
        { store := { sampleStore with trackArtists := [] },
          faults := { noFaults with batchTrackArtistsQ := false } }
        ["ISRC1"] ∧
    batchLookupISRCs
      { store := sampleStore,
        faults := { noFaults with batchArtistGenresQ := true } }
      ["ISRC1"] =
      batchLookupISRCs
        { store := { sampleStore with artistGenres := [] },
          faults := { noFaults with batchArtistGenresQ := false } }
        ["ISRC1"] ∧
    batchLookupISRCs
      { store := sampleStore,
        faults := { noFaults with batchArtistImagesQ := true } }
      ["ISRC1"] =
      batchLookupISRCs
        { store := { sampleStore with artistImages := [] },
          faults := { noFaults with batchArtistImagesQ := false } }
        ["ISRC1"] ∧
    batchLookupISRCs
      { store := sampleStore,
        faults := { noFaults with batchTrackFilesQ := true } }
      ["ISRC1"] =
      batchLookupISRCs
        { store := { sampleStore with trackFiles := [] },
          faults := { noFaults with batchTrackFilesQ := false } }
        ["ISRC1"] :=
  C5_subfetch_degradation sampleStore noFaults ["ISRC1"] rfl

/-- C5 counterexample: a failed album-artists sub-fetch is NOT degraded to
an empty sub-relation — batchGetAlbumArtists returns a nil artist-rowid
map, the merge loop writes into it because the track-artists fetch
returned a rowid, and the resulting panic aborts both the batch call and
the whole multi-category request. -/
theorem C5_counterexample :
    batchLookupISRCs
      { store := c5Store, faults := { batchAlbumArtistsQ := true } }
      ["I1"] = .abort "assignment to entry in nil map" ∧
    batchLookup
      { store := c5Store, faults := { batchAlbumArtistsQ := true } }
      { isrcs := ["I1"] } = .abort "assignment to entry in nil map" :=
  ⟨rfl, rfl⟩

theorem optAppend_none_some {g l : List β} (h : optAppend none g = some l) :
    l = g := by
  cases g with
  | nil => exact Option.noConfusion h
  | cons x xs =>
    injection h with h'
    exact h'.symm

/-- Reading the reassembled per-ISRC map at any key gives exactly the
assembled rows carrying that ISRC, in assembly order. -/
theorem assocGet_foldl_isrc (l : List Track) (k : String) :
    assocGet (l.foldl (fun m t => assocUpdAppend m t.isrc t) []) k =
      optAppend none (l.filter (fun t => decide ( t.isrc = k))) := by
  have h := assocGet_foldl_updAppend (fun t : Track => t.isrc)
    (fun t : Track => t) k l []
  rw [assocGet_nil] at h
  simpa using h

/-- Any single key of the batched ISRC reassembly is popularity-descending:
the joined rows are sorted lexicographically by (ISRC, popularity
descending), and restricted to one ISRC that is popularity descending. -/
theorem batchValue_pairwise_pop (s : Store) (isrcs : List String)
    (ai : List (Int × List Image)) (aa : List (Int × List ArtistRow))
    (ta : List (String × List ArtistRow)) (ag : List (Int × List String))
    (am : List (Int × List Image)) (tf : List (String × TrackFileData))
    (key : String) :
    (((qBatchTracksByISRCs s isrcs).map
        (assembleTrack ai aa ta ag am tf)).filter
      (fun t => decide ( t.isrc = key))).Pairwise
      (fun t1 t2 => t2.popularity ≤ t1.popularity) := by
  have hpair : (qBatchTracksByISRCs s isrcs).Pairwise
      (leLex (fun r : TrackAlbumRow => r.track.isrc.getD "")
        (fun r => OrderDual.toDual r.track.popularity)) :=
    pairwise_insertionSort _
      (fun a b => leLex_total _ _ a b)
      (fun a b c hab hbc => leLex_trans _ _ hab hbc) _
  rw [List.filter_map]
  refine List.pairwise_map.mpr ?_
  refine (hpair.filter _).imp_of_mem ?_
  intro a b ha hb hab
  have ha' : a.track.isrc.getD "" = key := by
    have h := (List.mem_filter.mp ha).2
    simp only [Function.comp_apply, decide_eq_true_eq] at h
    rwa [assembleTrack_isrc] at h
  have hb' : b.track.isrc.getD "" = key := by
    have h := (List.mem_filter.mp hb).2
    simp only [Function.comp_apply, decide_eq_true_eq] at h
    rwa [assembleTrack_isrc] at h
  rcases hab with hlt | ⟨_, hle⟩
  · have hlt' : a.track.isrc.getD "" < b.track.isrc.getD "" := hlt
    rw [ha', hb'] at hlt'
    exact absurd hlt' (lt_irrefl _)
  · rw [assembleTrack_popularity ai aa ta ag am tf b,
      assembleTrack_popularity ai aa ta ag am tf a]
    exact hle

/-- C9: for every ISRC, the recordings returned for it — by the single
lookup and at each key of the batched result — are ordered by popularity
descending. -/
theorem C9_popularity_order (c : Conn) (isrc key : String)
    (isrcs : List String) (ts : List Track)
    (m : List (String × List Track)) (ts2 : List Track)
    (h1 : lookupISRC c isrc = .ok ts)
    (h2 : batchLookupISRCs c isrcs = .ok m)
    (h3 : assocGet m key = some ts2) :
    ts.Pairwise (fun a b => b.popularity ≤ a.popularity) ∧
    ts2.Pairwise (fun a b => b.popularity ≤ a.popularity) := by
  constructor
  · unfold lookupISRC at h1
    by_cases hf : c.faults.isrcQ
    · rw [if_pos hf] at h1
      exact Except.noConfusion h1
    · rw [if_neg hf] at h1
      injection h1 with h1'
      subst h1'
      refine List.pairwise_map.mpr ?_
      have hs := pairwise_insertionSort
        (leKey (fun r : TrackAlbumRow => OrderDual.toDual r.track.popularity))
        (fun a b => leKey_total _ a b)
        (fun a b c hab hbc => leKey_trans _ hab hbc)
        ((joinTracksAlbums c.store).filter
          (fun r => decide (r.track.isrc = some isrc)))
      refine hs.imp ?_
      intro a b hab
      rw [scanTrack_popularity c b, scanTrack_popularity c a]
      exact hab
  · unfold batchLookupISRCs at h2
    dsimp only at h2
    by_cases he : isrcs.isEmpty
    · rw [if_pos he] at h2
      injection h2 with h2'
      subst h2'
      rw [assocGet_nil] at h3
      exact Option.noConfusion h3
    · rw [if_neg he] at h2
      by_cases hq : c.faults.batchIsrcQ
      · rw [if_pos hq] at h2
        exact GoResult.noConfusion h2
      · rw [if_neg hq] at h2
        by_cases hj : (qBatchTracksByISRCs c.store isrcs).isEmpty
        · rw [if_pos hj] at h2
          injection h2 with h2'
          subst h2'
          rw [assocGet_nil] at h3
          exact Option.noConfusion h3
        · rw [if_neg hj] at h2
          by_cases hab : nilMapWrite c
              ((qBatchTracksByISRCs c.store isrcs).map
                (fun r => r.album.rowid))
              ((qBatchTracksByISRCs c.store isrcs).map
                (fun r => r.track.id))
          · rw [if_pos hab] at h2
            exact GoResult.noConfusion h2
          · rw [if_neg hab] at h2
            injection h2 with h2'
            subst h2'
            rw [assocGet_foldl_isrc] at h3
            have hts2 := optAppend_none_some h3
            rw [hts2]
            exact batchValue_pairwise_pop c.store isrcs _ _ _ _ _ _ key

theorem C9_popularity_order_witness :
    (exceptD (lookupISRC sampleConn "ISRC2") []).Pairwise
      (fun a b => b.popularity ≤ a.popularity) ∧
    ((assocGet ((batchLookupISRCs sampleConn ["ISRC2"]).toOption.getD [])
        "ISRC2").getD []).Pairwise
      (fun a b => b.popularity ≤ a.popularity) :=
  C9_popularity_order sampleConn "ISRC2" "ISRC2" ["ISRC2"]
    (exceptD (lookupISRC sampleConn "ISRC2") [])
    ((batchLookupISRCs sampleConn ["ISRC2"]).toOption.getD [])
    ((assocGet ((batchLookupISRCs sampleConn ["ISRC2"]).toOption.getD [])
      "ISRC2").getD [])
    rfl rfl rfl

/-- C4 counterexample: the artist-images query has no DISTINCT, so a
Performer whose image rows are duplicated returns duplicate images — the
de-duplication half of the invariant fails on the Performer side. -/
theorem C4_counterexample :
    exceptD (getArtistImages sampleConn 101) [] =
      [{ url := "ai1", width := 640, height := 640 },
       { url := "ai1", width := 640, height := 640 }] ∧
    ¬ (exceptD (getArtistImages sampleConn 101) []).Nodup := by
  constructor
  · rfl
  · decide

/-- C4 (amended): in every path, single and batched, Release images are
width-non-increasing and duplicate-free (SELECT DISTINCT), and Performer
images are width-non-increasing — but Performer images are not
de-duplicated, since neither artist-images query uses DISTINCT. -/
theorem C4_image_ordering (c : Conn) (r r2 : Int)
    (albRowids artRowids : List Int) :
    ((exceptD (getAlbumImages c r) []).Pairwise
        (fun i1 i2 => i2.width ≤ i1.width) ∧
      (exceptD (getAlbumImages c r) []).Nodup) ∧
    (exceptD (getArtistImages c r2) []).Pairwise
      (fun i1 i2 => i2.width ≤ i1.width) ∧
    (((assocGet (exceptD (batchGetAlbumImages c albRowids) []) r).getD
        []).Pairwise (fun i1 i2 => i2.width ≤ i1.width) ∧
      ((assocGet (exceptD (batchGetAlbumImages c albRowids) []) r).getD
        []).Nodup) ∧
    ((assocGet (exceptD (batchGetArtistImages c artRowids) []) r2).getD
      []).Pairwise (fun i1 i2 => i2.width ≤ i1.width) := by
  have hbAlb : (((assocGet (exceptD (batchGetAlbumImages c albRowids) [])
      r).getD []).Pairwise (fun i1 i2 => i2.width ≤ i1.width)) ∧
      ((assocGet (exceptD (batchGetAlbumImages c albRowids) []) r).getD
        []).Nodup := by
    unfold batchGetAlbumImages
    by_cases hE : albRowids.isEmpty
    · simp [hE, exceptD, assocGet_nil]
    · simp only [hE, Bool.false_eq_true, if_false]
      by_cases hq : c.faults.batchAlbumImagesQ
      · simp [hq, exceptD, assocGet_nil]
      · simp only [hq, Bool.false_eq_true, if_false, exceptD]
        rw [assocGet_collectBy_getD]
        unfold batchAlbumImageRows
        have hnd : (List.insertionSort
            (leLex (fun rr : AlbumImageRow => rr.albumRowid)
              (fun rr => OrderDual.toDual rr.width))
            (dedupF (c.store.albumImages.filter
              (fun rr => albRowids.contains rr.albumRowid)))).Nodup :=
          ((List.perm_insertionSort _ _).nodup_iff).mpr (nodup_dedupF _)
        have hpair := pairwise_insertionSort
          (leLex (fun rr : AlbumImageRow => rr.albumRowid)
            (fun rr => OrderDual.toDual rr.width))
          (fun a b => leLex_total _ _ a b)
          (fun a b cc hab hbc => leLex_trans _ _ hab hbc)
          (dedupF (c.store.albumImages.filter
            (fun rr => albRowids.contains rr.albumRowid)))
        constructor
        · refine List.pairwise_map.mpr ?_
          refine (hpair.filter _).imp_of_mem ?_
          intro a b ha hb hab
          have ha' : a.albumRowid = r :=
            of_decide_eq_true (List.mem_filter.mp ha).2
          have hb' : b.albumRowid = r :=
            of_decide_eq_true (List.mem_filter.mp hb).2
          rcases hab with hlt | ⟨_, hle⟩
          · have hlt' : a.albumRowid < b.albumRowid := hlt
            rw [ha', hb'] at hlt'
            exact absurd hlt' (lt_irrefl _)
          · exact hle
        · refine List.Nodup.map_on ?_ (List.Nodup.filter _ hnd)
          intro x hx y hy hxy
          have hxr : x.albumRowid = r :=
            of_decide_eq_true (List.mem_filter.mp hx).2
          have hyr : y.albumRowid = r :=
            of_decide_eq_true (List.mem_filter.mp hy).2
          cases x with
          | mk xa xu xw xh =>
            cases y with
            | mk ya yu yw yh =>
              simp only [toImage, Image.mk.injEq] at hxy
              simp only at hxr hyr
              obtain ⟨h1, h2, h3⟩ := hxy
              subst h1
              subst h2
              subst h3
              rw [AlbumImageRow.mk.injEq]
              exact ⟨hxr.trans hyr.symm, rfl, rfl, rfl⟩
  have hbArt : ((assocGet (exceptD (batchGetArtistImages c artRowids) [])
      r2).getD []).Pairwise (fun i1 i2 => i2.width ≤ i1.width) := by
    unfold batchGetArtistImages
    by_cases hE : artRowids.isEmpty
    · simp [hE, exceptD, assocGet_nil]
    · simp only [hE, Bool.false_eq_true, if_false]
      by_cases hq : c.faults.batchArtistImagesQ
      · simp [hq, exceptD, assocGet_nil]
      · simp only [hq, Bool.false_eq_true, if_false, exceptD]
        rw [assocGet_collectBy_getD]
        have hpair := pairwise_insertionSort
          (leLex (fun rr : ArtistImageRow => rr.artistRowid)
            (fun rr => OrderDual.toDual rr.width))
          (fun a b => leLex_total _ _ a b)
          (fun a b cc hab hbc => leLex_trans _ _ hab hbc)
          (c.store.artistImages.filter
            (fun rr => artRowids.contains rr.artistRowid))
        refine List.pairwise_map.mpr ?_
        refine (hpair.filter _).imp_of_mem ?_
        intro a b ha hb hab
        have ha' : a.artistRowid = r2 :=
          of_decide_eq_true (List.mem_filter.mp ha).2
        have hb' : b.artistRowid = r2 :=
          of_decide_eq_true (List.mem_filter.mp hb).2
        rcases hab with hlt | ⟨_, hle⟩
        · have hlt' : a.artistRowid < b.artistRowid := hlt
          rw [ha', hb'] at hlt'
          exact absurd hlt' (lt_irrefl _)
        · exact hle
  refine ⟨⟨?_, ?_⟩, ?_, hbAlb, hbArt⟩
  · by_cases hf : c.faults.albumImagesQ
    · simp [getAlbumImages, hf, exceptD]
    · simp only [getAlbumImages, hf, Bool.false_eq_true, if_false, exceptD]
      refine (pairwise_insertionSort _ (fun a b => leKey_total _ a b)
        (fun a b cc hab hbc => leKey_trans _ hab hbc) _).imp ?_
      intro a b hab
      exact hab
  · by_cases hf : c.faults.albumImagesQ
    · simp [getAlbumImages, hf, exceptD]
    · simp only [getAlbumImages, hf, Bool.false_eq_true, if_false, exceptD]
      exact ((List.perm_insertionSort _ _).nodup_iff).mpr (nodup_dedupF _)
  · by_cases hf : c.faults.artistImagesQ
    · simp [getArtistImages, hf, exceptD]
    · simp only [getArtistImages, hf, Bool.false_eq_true, if_false, exceptD]
      refine (pairwise_insertionSort _ (fun a b => leKey_total _ a b)
        (fun a b cc hab hbc => leKey_trans _ hab hbc) _).imp ?_
      intro a b hab
      exact hab

/-- C7: Release-Performer attachment, single and batched path: the per-album
artist list is the ranked grouping ordered ascending by the aggregated
MIN(index_in_album); the aggregate of each group is the minimum over that
performer's index rows and is attained; every join row stems from an
artist_albums row with a non-null index (null-index rows are excluded by
the join, not appended); and the batched ranking restricted to one album is
exactly the single-album ranking. -/
theorem C7_release_performer_order (c : Conn) (r : Int) (rowids : List Int)
    (hcont : rowids.contains r = true)
    (hq : c.faults.albumArtistsQ = false)
    (hq2 : c.faults.batchAlbumArtistsQ = false)
    (hne : rowids.isEmpty = false) :
    exceptD (getAlbumArtists c r) [] =
      (albumArtistsRanked c.store r).map
        (fun g => hydrateArtist c g.1.1.artist) ∧
    (albumArtistsRanked c.store r).Pairwise (fun g1 g2 => g1.2 ≤ g2.2) ∧
    (∀ g ∈ albumArtistsRanked c.store r,
      (g.2 = g.1.1.idx ∨ g.2 ∈ g.1.2.map (fun row => row.idx)) ∧
      g.2 ≤ g.1.1.idx ∧ (∀ row ∈ g.1.2, g.2 ≤ row.idx) ∧
      g.1.1 ∈ albumArtistJoin c.store (fun rid => decide (rid = r))) ∧
    (∀ row ∈ albumArtistJoin c.store (fun rid => decide (rid = r)),
      row.albumRowid = r ∧
      ∃ aa ∈ c.store.artistAlbums, aa.albumRowid = row.albumRowid ∧
        aa.artistRowid = row.artist.rowid ∧
        aa.indexInAlbum = some row.idx) ∧
    (albumArtistsRankedB c.store rowids).filter
        (fun g => decide (g.1.1.albumRowid = r)) =
      albumArtistsRanked c.store r ∧
    (assocGet (exceptD (batchGetAlbumArtists c rowids) ([], [])).1 r).getD
        [] =
      (albumArtistsRanked c.store r).map (fun g => g.1.1.artist) := by
  refine ⟨?_, ?_, ?_, ?_, ?_, ?_⟩
  · unfold getAlbumArtists
    simp only [hq, Bool.false_eq_true, if_false, exceptD]
  · unfold albumArtistsRanked
    refine (pairwise_insertionSort _ (fun a b => leKey_total _ a b)
      (fun a b cc hab hbc => leKey_trans _ hab hbc) _).imp ?_
    intro a b hab
    exact hab
  · intro g hg
    unfold albumArtistsRanked at hg
    have hg' := (mem_insertionSort _).mp hg
    obtain ⟨g0, hg0, rfl⟩ := List.mem_map.mp hg'
    dsimp only
    refine ⟨?_, ?_, ?_, groupAgg_rep_mem _ hg0⟩
    · rw [minIdxOf_eq_foldl]
      exact foldl_min_choice _ _
    · rw [minIdxOf_eq_foldl]
      exact foldl_min_le_init _ _
    · intro row hrow
      rw [minIdxOf_eq_foldl]
      exact foldl_min_le_mem _ _ _ (List.mem_map_of_mem _ hrow)
  · intro row hrow
    obtain ⟨hp, -, hex⟩ := mem_albumArtistJoin hrow
    exact ⟨of_decide_eq_true hp, hex⟩
  · exact albumArtistsRanked_restrict c.store rowids r hcont
  · unfold batchGetAlbumArtists
    simp only [hne, Bool.false_eq_true, if_false, hq2, exceptD]
    rw [assocGet_collectBy_getD]
    rw [albumArtistsRanked_restrict c.store rowids r hcont]

theorem C7_release_performer_order_witness :
    exceptD (getAlbumArtists sampleConn 201) [] =
      (albumArtistsRanked sampleStore 201).map
        (fun g => hydrateArtist sampleConn g.1.1.artist) ∧
    (albumArtistsRanked sampleStore 201).Pairwise
      (fun g1 g2 => g1.2 ≤ g2.2) ∧
    (∀ g ∈ albumArtistsRanked sampleStore 201,
      (g.2 = g.1.1.idx ∨ g.2 ∈ g.1.2.map (fun row => row.idx)) ∧
      g.2 ≤ g.1.1.idx ∧ (∀ row ∈ g.1.2, g.2 ≤ row.idx) ∧
      g.1.1 ∈ albumArtistJoin sampleStore (fun rid => decide (rid = 201))) ∧
    (∀ row ∈ albumArtistJoin sampleStore (fun rid => decide (rid = 201)),
      row.albumRowid = 201 ∧
      ∃ aa ∈ sampleStore.artistAlbums, aa.albumRowid = row.albumRowid ∧
        aa.artistRowid = row.artist.rowid ∧
        aa.indexInAlbum = some row.idx) ∧
    (albumArtistsRankedB sampleStore [201]).filter
        (fun g => decide (g.1.1.albumRowid = 201)) =
      albumArtistsRanked sampleStore 201 ∧
    (assocGet (exceptD (batchGetAlbumArtists sampleConn [201])
        ([], [])).1 201).getD [] =
      (albumArtistsRanked sampleStore 201).map (fun g => g.1.1.artist) :=
  C7_release_performer_order sampleConn 201 [201] (by decide) rfl rfl rfl

end MetadataApi
